import Mathlib

/-!
# MotionSparsity: the quadtree decoder and the border fill of `src/tensorsplit.cpp`

A shallow embedding of `splitQuadToDense`, `save_data_to_tensor`,
`get_padded_tensor` and the batch driver `DenseSplitForwardCPU`, and of `GET_BLOCKS` of
`src/cuda/gpu.hpp`, followed by theorems about them.

Modelling conventions.

* A `float*` buffer (or a contiguous accessor) is a map from flat element index to
  element, `Mem α := Int → α`.  The index the source computes is used as it is: an
  index outside the nominal tensor is not trapped by the C++ code, it addresses the
  element the stride arithmetic yields, inside or outside the tensor.
* Elements are values of an arbitrary type `α` with a zero and decidable equality; the
  code only copies elements and compares them with `0`.
* `int` quantities that are never negative in the source are natural numbers.
* `float` arithmetic (IEEE binary32, round to nearest, ties to even) is modelled on
  rational numbers in the section on `float` arithmetic.  The `assert` of line 83
  (`ratio_eq`) and the function `save_data_to_tensor` with its `float` parameters
  (`save_data_to_tensor_float`) use it.
* In the traversal of the decoder `scale_factor = (float)tensor_h / grid_height` is kept
  as the exact fraction `tensor_h / grid_height`, and `int(v * scale_factor)` is the
  truncation of the exact product (`scaled`).  The two computations agree whenever the
  quotient and the products are `float`s (all concrete inputs of the decoder below have
  such quotients) and can differ otherwise; `save_data_to_tensor_float_exact`,
  `scaled_float_agrees` and `scaled_float_differs` relate them.
* `quadtree.hpp` and `densetoquad.hpp` are not among the sources.  The structure
  `quadtree`, `num_blocks`, `tree_isset_bit`, `child_idx` and `get_data_from_tensor` are
  modelled from the spec; `tree_data_idx`, `DenseToQuad` and the pooling reduction are
  parameters of the decoder and of the driver.  The section on leaf addressing models
  `tree_data_idx` itself from the spec (the breadth-first leaf rank) and instantiates the
  parameter with it.
* `int` arithmetic that can overflow (`GET_BLOCKS`) is taken modulo `2^32` on integers.
* The traversal of `splitQuadToDense` is split in two: the sequence of calls it makes
  (`splitQuadToDense_calls`, which follows the nested loops) and the effect of each call
  on the state (`Call.exec`).
-/

namespace MotionSparsity

/-! ## Memory -/

/-- A buffer addressed by flat element index. -/
abbrev Mem (α : Type) := Int → α

/-- The assignment `m[a] = v`. -/
def Mem.store {α : Type} (m : Mem α) (a : Int) (v : α) : Mem α :=
  fun i => if i = a then v else m i

/-! ## The quadtree structure and its helpers (`quadtree.hpp`) -/

/-- Modelled from the spec: the `quadtree` structure of `quadtree.hpp`, which is absent
from the sources (section 3 of the spec, "Quadtree Structure"): grid dimensions in
cells, channel width, one 21-bit tree per cell in row-major order, the prefix sums of
the leaf counts and the flat leaf buffer.  Arrays are maps from index to element. -/
structure quadtree (α : Type) where
  grid_height : Nat
  grid_width : Nat
  feature_size : Nat
  trees : Nat → Nat → Bool
  prefix_leafs : Nat → Nat
  data : Nat → α

/-- Modelled from the spec: `num_blocks()` of `quadtree.hpp`, the number of grid cells
(one tree per cell of the `grid_height * grid_width` grid). -/
def quadtree.num_blocks {α : Type} (q : quadtree α) : Nat :=
  q.grid_height * q.grid_width

/-- Modelled from the spec: `tree_isset_bit` of `quadtree.hpp` (`is_internal`, spec 4.1):
tests bit `idx` of the tree. -/
def tree_isset_bit (tree : Nat → Bool) (idx : Nat) : Bool :=
  tree idx

/-- Modelled from the spec: `child_idx` of `quadtree.hpp` (`child_index`, spec 4.1):
the first of the four children, `4 * idx + 1`. -/
def child_idx (idx : Nat) : Nat :=
  4 * idx + 1

/-! ## `float` arithmetic -/

/-- A rational number `num / den` (with `den > 0`): the value of a finite `float`, or the
exact result of an operation before it is rounded. -/
structure Frac where
  num : Int
  den : Nat
  deriving DecidableEq, Repr

/-- The exact product of two rational numbers. -/
def Frac.mul (a b : Frac) : Frac :=
  ⟨a.num * b.num, a.den * b.den⟩

/-- The number of binary digits of `n`, for `fuel` at least that number (`fuel = n` will
do). -/
def bitLength : Nat → Nat → Nat
  | 0, _ => 0
  | fuel + 1, n => if n = 0 then 0 else bitLength fuel (n / 2) + 1

/-- The integer nearest to `n / d`, a tie going to the even one. -/
def roundHalfEven (n d : Nat) : Nat :=
  let q := n / d
  let r := n % d
  if 2 * r < d then q else if 2 * r = d then (if q % 2 = 0 then q else q + 1) else q + 1

/-- The integer `k` with `2 ^ k <= n / d < 2 ^ (k + 1)`, for `n, d > 0`. -/
def floorLog2 (n d : Nat) : Int :=
  let k0 : Int := (bitLength n n : Int) - (bitLength d d : Int)
  if d * 2 ^ k0.toNat ≤ n * 2 ^ (-k0).toNat then k0 else k0 - 1

/-- The rounding of an exact result to type `float` (IEEE binary32, round to nearest, ties
to even): the result is `m * 2 ^ e` with the integer `m` the rounding of the magnitude
divided by `2 ^ e`, where `e >= -149` is such that the magnitude lies in
`[2 ^ (e + 23), 2 ^ (e + 24))` (24 significant bits) or `e = -149` (fewer bits below
`2 ^ -126`); `none` when the rounded magnitude reaches `2 ^ 128`, where the operation
yields an infinity. -/
def float_round (q : Frac) : Option Frac :=
  if q.num = 0 then some ⟨0, 1⟩
  else
    let n := q.num.natAbs
    let d := q.den
    let e : Int := max (floorLog2 n d - 23) (-149)
    let m := roundHalfEven (n * 2 ^ (-e).toNat) (d * 2 ^ e.toNat)
    if 2 ^ 128 * 2 ^ (-e).toNat ≤ m * 2 ^ e.toNat then none
    else some ⟨(if q.num < 0 then -1 else 1) * (m * 2 ^ e.toNat : Nat), 2 ^ (-e).toNat⟩

/-- The conversion `int(x)` of a finite `float`: truncation towards zero; `none` when the
truncated value is not an `int` (the conversion is then undefined). -/
def float_to_int (x : Frac) : Option Int :=
  let t := Int.tdiv x.num x.den
  if -2147483648 ≤ t ∧ t ≤ 2147483647 then some t else none

/-- The expression `int(v * scale_factor)` of lines 157-160 for finite `float`s `v` and
`scale_factor`: the product is rounded to `float`, then converted. -/
def float_mul_to_int (v scale_factor : Frac) : Option Int :=
  (float_round (v.mul scale_factor)).bind float_to_int

/-- The conversion `(float)n` of a non-negative `int`. -/
def float_of_nat (n : Nat) : Option Frac :=
  float_round ⟨n, 1⟩

/-- The `float` quotient `a / b` of two finite `float`s, `b > 0`. -/
def float_div (a b : Frac) : Option Frac :=
  float_round ⟨a.num * b.den, a.den * b.num.natAbs⟩

/-- The `float` quotient `(float)a / b` of two non-negative `int`s, `b > 0`: both are
converted to `float`, and the quotient is rounded to `float` (`none` when `b` is 0). -/
def float_quot (a b : Nat) : Option Frac :=
  if b = 0 then none
  else (float_of_nat a).bind fun x => (float_of_nat b).bind fun y => float_div x y

/-- The value `scale_factor = (float)tensor_h / grid_height` of line 85 as a `float`
(`none` when `grid_height` is 0). -/
def scale_factor (tensor_h grid_height : Nat) : Option Frac :=
  float_quot tensor_h grid_height

/-- The value `int(v * scale_factor)` as the code computes it in `float` arithmetic, for
a bound `v` that is a non-negative integer. -/
def scaled_float (tensor_h grid_height v : Nat) : Option Int :=
  (scale_factor tensor_h grid_height).bind fun s =>
    (float_of_nat v).bind fun x => float_mul_to_int x s

/-! ## `save_data_to_tensor` -/

/-- The value `int(v * scale_factor)` for the exact quotient
`scale_factor = tensor_h / grid_height`: the truncation of `v * tensor_h / grid_height`.
It is the value the code computes whenever the quotient and the product are `float`s;
`scaled_float` is the computation in `float` arithmetic. -/
def scaled (tensor_h grid_height v : Nat) : Nat :=
  v * tensor_h / grid_height

/-- The integers `a, a+1, ..., b-1` of a loop `for (int i = a; i < b; ++i)`. -/
def loopRange (a b : Nat) : List Nat :=
  (List.range (b - a)).map (fun i => a + i)

/-- The index triples `(h, w, f)` visited by the three nested loops of
`save_data_to_tensor`, in the order of the source (lines 157-166). -/
def save_data_to_tensor_idx (tensor_h grid_height feature_size h1 h2 w1 w2 : Nat) :
    List (Nat × Nat × Nat) :=
  let h1_tensor := scaled tensor_h grid_height h1
  let h2_tensor := scaled tensor_h grid_height h2
  let w1_tensor := scaled tensor_h grid_height w1
  let w2_tensor := scaled tensor_h grid_height w2
  (loopRange h1_tensor h2_tensor).flatMap fun h =>
    (loopRange w1_tensor w2_tensor).flatMap fun w =>
      (List.range feature_size).map fun f => (h, w, f)

/-- The flat index `(f * tensor_h + h) * tensor_w + w` of line 170. -/
def flatIdx (tensor_h tensor_w f h w : Nat) : Int :=
  (((f * tensor_h + h) * tensor_w + w : Nat) : Int)

/-- The function `save_data_to_tensor` (lines 152-174) as the decoder calls it, with
non-negative integer bounds and the exact scale `tensor_h / grid_height`: every visited
`(h, w, f)` stores `src_data[f]` at `dst_tensor[(f * tensor_h + h) * tensor_w + w]`.
The function with its `float` parameters is `save_data_to_tensor_float`. -/
def save_data_to_tensor {α : Type} (src_data : Nat → α) (dst_tensor : Mem α)
    (tensor_h grid_height tensor_w feature_size h1 h2 w1 w2 : Nat) : Mem α :=
  (save_data_to_tensor_idx tensor_h grid_height feature_size h1 h2 w1 w2).foldl
    (fun dst p => dst.store (flatIdx tensor_h tensor_w p.2.2 p.1 p.2.1) (src_data p.2.2))
    dst_tensor

/-- The integers `a, a+1, ..., b-1` of a loop `for (int i = a; i < b; ++i)` over `int`s of
either sign. -/
def loopRangeInt (a b : Int) : List Int :=
  (List.range (b - a).toNat).map (fun (i : Nat) => a + (i : Int))

/-- The index triples `(h, w, f)` visited by the three nested loops of
`save_data_to_tensor` (lines 161-173) for given `h1_tensor, h2_tensor, w1_tensor,
w2_tensor`, in order. -/
def save_data_to_tensor_float_idx (feature_size : Nat)
    (h1_tensor h2_tensor w1_tensor w2_tensor : Int) : List (Int × Int × Nat) :=
  (loopRangeInt h1_tensor h2_tensor).flatMap fun h =>
    (loopRangeInt w1_tensor w2_tensor).flatMap fun w =>
      (List.range feature_size).map fun f => (h, w, f)

/-- The flat index `(f * tensor_h + h) * tensor_w + w` of line 170 for `int`s `h` and `w`
of either sign. -/
def flatIdxInt (tensor_h tensor_w f : Nat) (h w : Int) : Int :=
  ((f : Int) * tensor_h + h) * tensor_w + w

/-- The function `save_data_to_tensor` (lines 152-174) with its `float` parameters: the
scale factor and the four bounds are arbitrary finite `float`s, the four products are
rounded to `float` and converted to `int` (lines 157-160), and every visited `(h, w, f)`
stores `src_data[f]` at `dst_tensor[(f * tensor_h + h) * tensor_w + w]`.  The result is the
destination buffer after the call, `none` when a product is not finite or its conversion
to `int` is undefined. -/
def save_data_to_tensor_float {α : Type} (src_data : Nat → α) (dst_tensor : Mem α)
    (scale_factor : Frac) (tensor_h tensor_w feature_size : Nat) (h1 h2 w1 w2 : Frac) :
    Option (Mem α) :=
  (float_mul_to_int h1 scale_factor).bind fun h1_tensor =>
  (float_mul_to_int h2 scale_factor).bind fun h2_tensor =>
  (float_mul_to_int w1 scale_factor).bind fun w1_tensor =>
  (float_mul_to_int w2 scale_factor).bind fun w2_tensor =>
    some ((save_data_to_tensor_float_idx feature_size h1_tensor h2_tensor w1_tensor
      w2_tensor).foldl
        (fun dst p => dst.store (flatIdxInt tensor_h tensor_w p.2.2 p.1 p.2.1)
          (src_data p.2.2))
        dst_tensor)

/-- Modelled from the spec: `get_data_from_tensor` of `densetoquad.hpp`, absent from the
sources; the spec describes it as the encoder's pooling step (4.2: a leaf's
"representative feature vector" is computed by "pooling over the region's pixels", the
reduction being pluggable).  It reads the tensor and overwrites the `feature_size`
entries of the leaf vector at offset `dst` of the data buffer with the pooled values
`pool tensor h1 h2 w1 w2 f`; the tensor is not modified.  The bounds are passed in half
units (twice the source's value), the source passing `centre ± 0.5`. -/
def get_data_from_tensor {α : Type} (pool : Mem α → Nat → Nat → Nat → Nat → Nat → α)
    (data : Nat → α) (dst : Nat) (src_tensor : Mem α) (feature_size : Nat)
    (h1 h2 w1 w2 : Nat) : Nat → α :=
  fun i => if dst ≤ i ∧ i < dst + feature_size then pool src_tensor h1 h2 w1 w2 (i - dst)
    else data i

/-! ## `splitQuadToDense` -/

/-- One call made by the traversal of `splitQuadToDense`.
`save tier src h1 h2 w1 w2` is `save_data_to_tensor(data + src, out, ..., h1, h2, w1, w2)`
with `out` the tensor `out_l1_dst`, `out_l2_dst`, `out_l3_dst` for `tier = 0, 1, 2`;
`get dst h1 h2 w1 w2` is `get_data_from_tensor(data + dst, out_l4_dst, ...)` with bounds
in half units. -/
inductive Call where
  | save (tier src h1 h2 w1 w2 : Nat)
  | get (dst h1 h2 w1 w2 : Nat)
  deriving DecidableEq, Repr

/-- The calls made by one iteration of the loop over `grid_idx` (lines 89-149).  The
parameter `tree_data_idx` is the helper of `quadtree.hpp` (absent from the sources)
giving the offset of a leaf vector inside the data block of its cell. -/
def cell_calls {α : Type} (tree_data_idx : (Nat → Bool) → Nat → Nat → Nat)
    (input_quad : quadtree α) (grid_idx : Nat) : List Call :=
  let grid_width := input_quad.grid_width
  let feature_size := input_quad.feature_size
  let grid_tree := input_quad.trees grid_idx
  let grid_data := input_quad.feature_size * input_quad.prefix_leafs grid_idx
  let grid_h_idx := grid_idx / grid_width
  let grid_w_idx := grid_idx % grid_width
  let centre_x := grid_w_idx * 8 + 4
  let centre_y := grid_h_idx * 8 + 4
  if tree_isset_bit grid_tree 0 then
    [0, 1].flatMap fun hl1 => [0, 1].flatMap fun wl1 =>
      let bit_idx_l1 := 1 + hl1 * 2 + wl1
      let centre_x_l1 := centre_x + wl1 * 4 - 2
      let centre_y_l1 := centre_y + hl1 * 4 - 2
      if tree_isset_bit grid_tree bit_idx_l1 then
        [0, 1].flatMap fun hl2 => [0, 1].flatMap fun wl2 =>
          let bit_idx_l2 := child_idx bit_idx_l1 + hl2 * 2 + wl2
          let centre_x_l2 := centre_x_l1 + wl2 * 2 - 1
          let centre_y_l2 := centre_y_l1 + hl2 * 2 - 1
          if tree_isset_bit grid_tree bit_idx_l2 then
            [0, 1].flatMap fun hl3 => [0, 1].flatMap fun wl3 =>
              let bit_idx_l3 := child_idx bit_idx_l2 + hl3 * 2 + wl3
              let data_idx := tree_data_idx grid_tree bit_idx_l3 feature_size
              [Call.get (grid_data + data_idx) (2 * centre_x_l2 - 1) (2 * centre_x_l2 + 1)
                (2 * centre_y_l2 - 1) (2 * centre_y_l2 + 1)]
          else
            let data_idx := tree_data_idx grid_tree bit_idx_l2 feature_size
            [Call.save 2 (grid_data + data_idx) (centre_x_l2 - 1) (centre_x_l2 + 1)
              (centre_y_l2 - 1) (centre_y_l2 + 1)]
      else
        let data_idx := tree_data_idx grid_tree bit_idx_l1 feature_size
        [Call.save 1 (grid_data + data_idx) (centre_x_l1 - 2) (centre_x_l1 + 2)
          (centre_y_l1 - 2) (centre_y_l1 + 2)]
  else
    [Call.save 0 grid_data (centre_x - 4) (centre_x + 4) (centre_y - 4) (centre_y + 4)]

/-- The calls made by the whole loop `for (grid_idx = 0; grid_idx < n_blocks; ++grid_idx)`,
in order. -/
def splitQuadToDense_calls {α : Type} (tree_data_idx : (Nat → Bool) → Nat → Nat → Nat)
    (input_quad : quadtree α) : List Call :=
  (List.range input_quad.num_blocks).flatMap (cell_calls tree_data_idx input_quad)

/-- The state the traversal works on: the leaf buffer of the structure and the four
destination tensors. -/
structure SplitState (α : Type) where
  data : Nat → α
  out_l1_dst : Mem α
  out_l2_dst : Mem α
  out_l3_dst : Mem α
  out_l4_dst : Mem α

/-- The destination tensor of tier `k`: `out_l1_dst` for tier 0, ..., `out_l4_dst` for
tier 3. -/
def SplitState.tier {α : Type} (s : SplitState α) (k : Nat) : Mem α :=
  match k with
  | 0 => s.out_l1_dst
  | 1 => s.out_l2_dst
  | 2 => s.out_l3_dst
  | _ => s.out_l4_dst

/-- The effect of one call on the state. -/
def Call.exec {α : Type} (pool : Mem α → Nat → Nat → Nat → Nat → Nat → α)
    (tensor_h grid_height tensor_w feature_size : Nat) (s : SplitState α) :
    Call → SplitState α
  | Call.save 0 src h1 h2 w1 w2 =>
      { s with out_l1_dst := (save_data_to_tensor (fun f => s.data (src + f)) s.out_l1_dst
          tensor_h grid_height tensor_w feature_size h1 h2 w1 w2) }
  | Call.save 1 src h1 h2 w1 w2 =>
      { s with out_l2_dst := (save_data_to_tensor (fun f => s.data (src + f)) s.out_l2_dst
          tensor_h grid_height tensor_w feature_size h1 h2 w1 w2) }
  | Call.save _ src h1 h2 w1 w2 =>
      { s with out_l3_dst := (save_data_to_tensor (fun f => s.data (src + f)) s.out_l3_dst
          tensor_h grid_height tensor_w feature_size h1 h2 w1 w2) }
  | Call.get dst h1 h2 w1 w2 =>
      { s with data := (get_data_from_tensor pool s.data dst s.out_l4_dst feature_size
          h1 h2 w1 w2) }

/-- The comparison `(float)a / b == (float)c / d` of non-negative `int`s (line 83), in
`float` arithmetic: a quotient with zero divisor is infinite (or NaN when the dividend is
zero too, which compares unequal to everything); otherwise the operands are converted to
`float`, the two quotients are rounded to `float`, and the rounded values are compared. -/
def ratio_eq (a b c d : Nat) : Bool :=
  if b = 0 ∧ d = 0 then decide (a ≠ 0 ∧ c ≠ 0)
  else if b = 0 ∨ d = 0 then false
  else
    match float_quot a b, float_quot c d with
    | some x, some y => decide (x.num * (y.den : Int) = y.num * (x.den : Int))
    | _, _ => false

/-- The condition of the `assert` of lines 83-84. -/
def splitQuadToDense_check {α : Type} (f tensor_h tensor_w : Nat)
    (input_quad : quadtree α) : Bool :=
  decide (f = input_quad.feature_size) &&
    ratio_eq tensor_h input_quad.grid_height input_quad.grid_width tensor_w

/-- The state on entry: the leaf buffer of the structure and the four tensors passed by
the caller. -/
def SplitState.entry {α : Type} (input_quad : quadtree α)
    (out_l1_dst out_l2_dst out_l3_dst out_l4_dst : Mem α) : SplitState α :=
  { data := input_quad.data, out_l1_dst := out_l1_dst, out_l2_dst := out_l2_dst,
    out_l3_dst := out_l3_dst, out_l4_dst := out_l4_dst }

/-- The loop of `splitQuadToDense` (lines 85-150), without the `assert`. -/
def splitQuadToDense_loop {α : Type} (tree_data_idx : (Nat → Bool) → Nat → Nat → Nat)
    (pool : Mem α → Nat → Nat → Nat → Nat → Nat → α) (tensor_h tensor_w : Nat)
    (input_quad : quadtree α) (out_l1_dst out_l2_dst out_l3_dst out_l4_dst : Mem α) :
    SplitState α :=
  (splitQuadToDense_calls tree_data_idx input_quad).foldl
    (Call.exec pool tensor_h input_quad.grid_height tensor_w input_quad.feature_size)
    (SplitState.entry input_quad out_l1_dst out_l2_dst out_l3_dst out_l4_dst)

/-- The function `splitQuadToDense` (lines 76-151): `none` when the `assert` fails,
otherwise the state after the loop. -/
def splitQuadToDense {α : Type} (tree_data_idx : (Nat → Bool) → Nat → Nat → Nat)
    (pool : Mem α → Nat → Nat → Nat → Nat → Nat → α) (f tensor_h tensor_w : Nat)
    (input_quad : quadtree α) (out_l1_dst out_l2_dst out_l3_dst out_l4_dst : Mem α) :
    Option (SplitState α) :=
  if splitQuadToDense_check f tensor_h tensor_w input_quad then
    some (splitQuadToDense_loop tree_data_idx pool tensor_h tensor_w input_quad
      out_l1_dst out_l2_dst out_l3_dst out_l4_dst)
  else none

/-- One store of the run: tier, channel `f`, row `h`, column `w`, and the index of the
data buffer the stored element is read from. -/
structure Store where
  tier : Nat
  f : Nat
  h : Nat
  w : Nat
  src : Nat
  deriving DecidableEq, Repr

/-- The stores a call performs on the tier tensors, in order. -/
def Call.stores (tensor_h grid_height feature_size : Nat) : Call → List Store
  | Call.save tier src h1 h2 w1 w2 =>
      (save_data_to_tensor_idx tensor_h grid_height feature_size h1 h2 w1 w2).map
        fun p => { tier := tier, f := p.2.2, h := p.1, w := p.2.1, src := src + p.2.2 }
  | Call.get _ _ _ _ _ => []

/-- All stores `splitQuadToDense` performs on the four tier tensors, in order. -/
def splitQuadToDense_stores {α : Type} (tree_data_idx : (Nat → Bool) → Nat → Nat → Nat)
    (tensor_h : Nat) (input_quad : quadtree α) : List Store :=
  (splitQuadToDense_calls tree_data_idx input_quad).flatMap
    (Call.stores tensor_h input_quad.grid_height input_quad.feature_size)

/-- The `save_data_to_tensor` calls of cell `g`, leaf by leaf: a root leaf (tier 0), a
depth-1 leaf `(hl1, wl1)` (tier 1) or a depth-2 leaf `(hl1, wl1, hl2, wl2)` (tier 2), with
the offset of its vector in the data buffer and its bounds `h1, h2, w1, w2` in units. -/
def LeafCall {α : Type} (tree_data_idx : (Nat → Bool) → Nat → Nat → Nat)
    (q : quadtree α) (g tier src h1 h2 w1 w2 : Nat) : Prop :=
  (tier = 0 ∧ q.trees g 0 = false ∧ src = q.feature_size * q.prefix_leafs g ∧
    h1 = g % q.grid_width * 8 ∧ h2 = g % q.grid_width * 8 + 8 ∧
    w1 = g / q.grid_width * 8 ∧ w2 = g / q.grid_width * 8 + 8) ∨
  (tier = 1 ∧ q.trees g 0 = true ∧ ∃ hl1 wl1, hl1 < 2 ∧ wl1 < 2 ∧
    q.trees g (1 + hl1 * 2 + wl1) = false ∧
    src = q.feature_size * q.prefix_leafs g +
      tree_data_idx (q.trees g) (1 + hl1 * 2 + wl1) q.feature_size ∧
    h1 = g % q.grid_width * 8 + wl1 * 4 ∧ h2 = g % q.grid_width * 8 + wl1 * 4 + 4 ∧
    w1 = g / q.grid_width * 8 + hl1 * 4 ∧ w2 = g / q.grid_width * 8 + hl1 * 4 + 4) ∨
  (tier = 2 ∧ q.trees g 0 = true ∧ ∃ hl1 wl1 hl2 wl2, hl1 < 2 ∧ wl1 < 2 ∧ hl2 < 2 ∧ wl2 < 2 ∧
    q.trees g (1 + hl1 * 2 + wl1) = true ∧
    q.trees g (4 * (1 + hl1 * 2 + wl1) + 1 + hl2 * 2 + wl2) = false ∧
    src = q.feature_size * q.prefix_leafs g +
      tree_data_idx (q.trees g) (4 * (1 + hl1 * 2 + wl1) + 1 + hl2 * 2 + wl2) q.feature_size ∧
    h1 = g % q.grid_width * 8 + wl1 * 4 + wl2 * 2 ∧
    h2 = g % q.grid_width * 8 + wl1 * 4 + wl2 * 2 + 2 ∧
    w1 = g / q.grid_width * 8 + hl1 * 4 + hl2 * 2 ∧
    w2 = g / q.grid_width * 8 + hl1 * 4 + hl2 * 2 + 2)

/-! ## `get_padded_tensor` -/

/-- The element offset of `acc[f][x][y]` for a contiguous accessor of a tensor with
sizes `(nf, nx, ny)`, that is, strides `(nx * ny, ny, 1)`.  The accessors of the source
do not check their indices. -/
def accIdx (nx ny : Nat) (f x y : Int) : Int :=
  (f * nx + x) * ny + y

/-- The neighbours `(x', y')` examined for a non-zero pixel `(x, y)`, in the order of
the source: the four corner branches of lines 196-239 and the final `else` branch of
lines 240-258. -/
def neighbours (nx ny : Nat) (x y : Int) : List (Int × Int) :=
  if x = 0 ∧ y = 0 then [(x + 1, y), (x, y + 1)]
  else if x = 0 ∧ y = (ny : Int) - 1 then [(x + 1, y), (x, y - 1)]
  else if x = (nx : Int) - 1 ∧ y = 0 then [(x - 1, y), (x, y + 1)]
  else if x = (nx : Int) - 1 ∧ y = (ny : Int) - 1 then [(x - 1, y), (x, y - 1)]
  else [(x - 1, y), (x + 1, y), (x, y - 1), (x, y + 1)]

/-- One guarded copy `if (input_acc[f][x'][y'] == 0) input_acc[f][x'][y'] = ref_acc[f][x'][y']`. -/
def padNeighbour {α : Type} [Zero α] [DecidableEq α] (nx ny : Nat) (ref : Mem α) (f : Int)
    (t : Mem α) (n : Int × Int) : Mem α :=
  if t (accIdx nx ny f n.1 n.2) = 0 then
    t.store (accIdx nx ny f n.1 n.2) (ref (accIdx nx ny f n.1 n.2))
  else t

/-- The body of the innermost loop (lines 194-259) at pixel `(f, x, y)`. -/
def padPixel {α : Type} [Zero α] [DecidableEq α] (nx ny : Nat) (ref : Mem α) (t : Mem α)
    (p : Nat × Nat × Nat) : Mem α :=
  if t (accIdx nx ny p.1 p.2.1 p.2.2) ≠ 0 then
    (neighbours nx ny p.2.1 p.2.2).foldl (padNeighbour nx ny ref p.1) t
  else t

/-- The pixels `(f, x, y)` in the order of the three nested loops of lines 188-192. -/
def padOrder (nf nx ny : Nat) : List (Nat × Nat × Nat) :=
  (List.range nf).flatMap fun f =>
    (List.range nx).flatMap fun x =>
      (List.range ny).map fun y => (f, x, y)

/-- The loop body run over an arbitrary sequence of pixels. -/
def padPass {α : Type} [Zero α] [DecidableEq α] (nx ny : Nat) (ref : Mem α)
    (order : List (Nat × Nat × Nat)) (t : Mem α) : Mem α :=
  order.foldl (padPixel nx ny ref) t

/-- The function `get_padded_tensor` (lines 176-263) on a tensor of sizes `(nf, nx, ny)`
and a reference tensor of the same sizes, both contiguous; the result is the content of
`input_tensor` after the pass. -/
def get_padded_tensor {α : Type} [Zero α] [DecidableEq α] (nf nx ny : Nat)
    (input_tensor ref : Mem α) : Mem α :=
  padPass nx ny ref (padOrder nf nx ny) input_tensor

/-- The pixel `(x', y')` is an axis-aligned neighbour of the pixel `(x, y)`. -/
def axisNeighbour (x y x' y' : Nat) : Prop :=
  (x' = x ∧ (y' = y + 1 ∨ y' + 1 = y)) ∨ (y' = y ∧ (x' = x + 1 ∨ x' + 1 = x))

instance (x y x' y' : Nat) : Decidable (axisNeighbour x y x' y') := by
  unfold axisNeighbour
  infer_instance

/-- The index pair `(x', y')` lies inside a tensor with `nx` rows and `ny` columns. -/
def inTensor (nx ny : Nat) (n : Int × Int) : Prop :=
  0 ≤ n.1 ∧ n.1 < nx ∧ 0 ≤ n.2 ∧ n.2 < ny

instance (nx ny : Nat) (n : Int × Int) : Decidable (inTensor nx ny n) := by
  unfold inTensor
  infer_instance

/-- A tensor given by the list of its elements in memory order; every element outside
the list is zero. -/
def ofList (l : List Int) : Mem Int :=
  fun i => if 0 ≤ i then l.getD i.toNat 0 else 0

/-- The relation between the tensor before and after any part of the pass: an element
is either untouched, or it was zero and now holds the reference value. -/
def Fills {α : Type} [Zero α] (ref t u : Mem α) : Prop :=
  ∀ a, u a = t a ∨ (t a = 0 ∧ u a = ref a)

/-! ## Concrete inputs -/

/-- A sample leaf-offset helper for concrete runs: the offset `(bit_idx - 1) * feature_size`,
which numbers the four depth-1 leaves of a cell subdivided once in traversal order. -/
def sampleOffset : (Nat → Bool) → Nat → Nat → Nat :=
  fun _ bit_idx feature_size => (bit_idx - 1) * feature_size

/-- A pooling reduction returning zero. -/
def poolZero : Mem Int → Nat → Nat → Nat → Nat → Nat → Int :=
  fun _ _ _ _ _ _ => 0

/-- The concrete scenario of the spec: 2x2 cells, one channel, cell `(0, 0)` fully
subdivided (all 21 bits set, 64 leaves of value 1), the cells `(0, 1)`, `(1, 0)`, `(1, 1)`
single root leaves of value 2, 3, 4. -/
def concreteScenario : quadtree Int where
  grid_height := 2
  grid_width := 2
  feature_size := 1
  trees := fun g _ => decide (g = 0)
  prefix_leafs := fun i => if i = 0 then 0 else 63 + i
  data := fun i => if i < 64 then 1 else if i = 64 then 2 else if i = 65 then 3 else 4

/-- A grid of 16 rows and 2 columns of root-leaf cells, one channel, cell `g` holding the
value `g + 1`. -/
def transposedGrid : quadtree Int where
  grid_height := 16
  grid_width := 2
  feature_size := 1
  trees := fun _ _ => false
  prefix_leafs := fun i => i
  data := fun i => (i : Int) + 1

/-- A grid of 24 rows and 2 columns of cells, one channel; cell 1 is subdivided once (four
depth-1 leaves), every other cell is a root leaf; all leaf values are 1. -/
def aliasGrid : quadtree Int where
  grid_height := 24
  grid_width := 2
  feature_size := 1
  trees := fun g i => decide (g = 1 ∧ i = 0)
  prefix_leafs := fun i => if i ≤ 1 then i else i + 3
  data := fun _ => 1

/-- A grid of 2 rows and 1 column of root-leaf cells, one channel. -/
def halfScaleGrid : quadtree Int where
  grid_height := 2
  grid_width := 1
  feature_size := 1
  trees := fun _ _ => false
  prefix_leafs := fun i => i
  data := fun _ => 1

/-- A grid of 8 rows and 1 column of root-leaf cells, one channel, cell `g` holding the
value `g + 1`. -/
def columnGrid : quadtree Int where
  grid_height := 8
  grid_width := 1
  feature_size := 1
  trees := fun _ _ => false
  prefix_leafs := fun i => i
  data := fun i => (i : Int) + 1

/-! ## `DenseSplitForwardCPU` -/

/-- A tensor: its sizes and its elements, contiguous in memory. -/
structure Tensor (α : Type) where
  sizes : List Nat
  elems : Mem α

/-- The memory seen through the pointer of a slice that starts `off` elements into the
buffer (`tensor[t]` of a contiguous tensor). -/
def Mem.view {α : Type} (m : Mem α) (off : Int) : Mem α :=
  fun i => m (off + i)

/-- The buffer whose content, seen from the slice that starts at `off`, is `v`. -/
def Mem.unview {α : Type} (v : Mem α) (off : Int) : Mem α :=
  fun i => v (i - off)

/-- The ways in which `DenseSplitForwardCPU` ends without completing: the `TORCH_CHECK`
of line 34 (`dimension`, with the number of dimensions found), one of the `TORCH_CHECK`s
of lines 35-38 (`shape`), or the process being aborted while sample `t` is handled
(`aborted`: the `assert` of `splitQuadToDense`, or a failure inside `DenseToQuad`). -/
inductive ForwardError where
  | dimension (dim : Nat)
  | shape
  | aborted (t : Nat)
  deriving DecidableEq, Repr

/-- The error is one of the shape or dimension errors of lines 34-38. -/
def ForwardError.isShapeError : ForwardError → Bool
  | ForwardError.dimension _ => true
  | ForwardError.shape => true
  | ForwardError.aborted _ => false

/-- The outcome of `DenseSplitForwardCPU`: the error, if any, and the elements of the four
output tensors when the call ends. -/
structure ForwardResult (α : Type) where
  error : Option ForwardError
  out_l1 : Mem α
  out_l2 : Mem α
  out_l3 : Mem α
  out_l4 : Mem α

/-- The body of the loop over the batch (lines 53-70) for sample `t`, on the elements of
the four output tensors.  `DenseToQuad` (`densetoquad.hpp`, absent from the sources) is a
parameter; it returns `none` if it fails.  A failure, or the failing `assert` of
`splitQuadToDense`, ends the run with the outputs as they are. -/
def DenseSplitForwardCPU_sample {α : Type} [Zero α] [DecidableEq α]
    (DenseToQuad : Nat → Nat → Nat → Mem α → quadtree α → Option (quadtree α))
    (tree_data_idx : (Nat → Bool) → Nat → Nat → Nat)
    (pool : Mem α → Nat → Nat → Nat → Nat → Nat → α) (f h w : Nat) (input : Mem α)
    (structures : Nat → quadtree α) (r : ForwardResult α) (t : Nat) : ForwardResult α :=
  let off : Int := ((t * (f * h * w) : Nat) : Int)
  let stru := structures t
  let input_t := input.view off
  match r.error with
  | some _ => r
  | none =>
    match DenseToQuad f h w input_t stru with
    | none => { r with error := some (ForwardError.aborted t) }
    | some input_quad =>
      match splitQuadToDense tree_data_idx pool f h w input_quad (r.out_l1.view off)
          (r.out_l2.view off) (r.out_l3.view off) (r.out_l4.view off) with
      | none => { r with error := some (ForwardError.aborted t) }
      | some s =>
        { error := none
          out_l1 := (get_padded_tensor f h w s.out_l1_dst input_t).unview off
          out_l2 := (get_padded_tensor f h w s.out_l2_dst input_t).unview off
          out_l3 := (get_padded_tensor f h w s.out_l3_dst input_t).unview off
          out_l4 := (get_padded_tensor f h w s.out_l4_dst input_t).unview off }

/-- The function `DenseSplitForwardCPU` (lines 22-74) on contiguous tensors: the five
`TORCH_CHECK`s in the order of the source, then the loop over the samples `0, ..., T - 1`.
The samples are taken in index order; the scheduling of `at::parallel_for` is not
modelled. -/
def DenseSplitForwardCPU {α : Type} [Zero α] [DecidableEq α]
    (DenseToQuad : Nat → Nat → Nat → Mem α → quadtree α → Option (quadtree α))
    (tree_data_idx : (Nat → Bool) → Nat → Nat → Nat)
    (pool : Mem α → Nat → Nat → Nat → Nat → Nat → α)
    (input out_l1 out_l2 out_l3 out_l4 : Tensor α) (structures : Nat → quadtree α) :
    ForwardResult α :=
  let unchanged (e : ForwardError) : ForwardResult α :=
    ⟨some e, out_l1.elems, out_l2.elems, out_l3.elems, out_l4.elems⟩
  let dim := input.sizes.length
  if dim ≠ 4 then unchanged (ForwardError.dimension dim)
  else if input.sizes ≠ out_l1.sizes then unchanged ForwardError.shape
  else if input.sizes ≠ out_l2.sizes then unchanged ForwardError.shape
  else if input.sizes ≠ out_l3.sizes then unchanged ForwardError.shape
  else if input.sizes ≠ out_l4.sizes then unchanged ForwardError.shape
  else
    let T := input.sizes.getD 0 0
    let f := input.sizes.getD 1 0
    let h := input.sizes.getD 2 0
    let w := input.sizes.getD 3 0
    (List.range T).foldl
      (DenseSplitForwardCPU_sample DenseToQuad tree_data_idx pool f h w input.elems structures)
      ⟨none, out_l1.elems, out_l2.elems, out_l3.elems, out_l4.elems⟩

/-- A grid of 8 rows and 1 column of cells, one channel; cell 0 is subdivided down to
depth 3 (all 21 bits set, 64 leaves), every other cell is a root leaf; all leaf values
are 1. -/
def deepColumnGrid : quadtree Int where
  grid_height := 8
  grid_width := 1
  feature_size := 1
  trees := fun g _ => decide (g = 0)
  prefix_leafs := fun i => if i = 0 then 0 else 63 + i
  data := fun _ => 1

/-- A grid of 2 rows and 2 columns of root-leaf cells, one channel, cell `g` holding the
value `g + 1`. -/
def squareGrid : quadtree Int where
  grid_height := 2
  grid_width := 2
  feature_size := 1
  trees := fun _ _ => false
  prefix_leafs := fun i => i
  data := fun i => (i : Int) + 1

/-! ## `GET_BLOCKS` (`cuda/gpu.hpp`) -/

/-- The value of a 32-bit signed `int` computation whose exact result is `x`: the
representative of `x` modulo `2^32` in `[-2^31, 2^31)`. -/
def wrap32 (x : Int) : Int :=
  (x + 2147483648) % 4294967296 - 2147483648

/-- The constant `CUDA_NUM_THREADS` (line 24). -/
def CUDA_NUM_THREADS : Int := 1024

/-- The function `GET_BLOCKS_T` (lines 27-30): `(N + N_THREADS - 1) / N_THREADS` in `int`
arithmetic, the sum and the difference wrapping at 32 bits and the division truncating
towards zero. -/
def GET_BLOCKS_T (N N_THREADS : Int) : Int :=
  Int.tdiv (wrap32 (wrap32 (N + N_THREADS) - 1)) N_THREADS

/-- The function `GET_BLOCKS` (lines 31-35). -/
def GET_BLOCKS (N : Int) : Int :=
  GET_BLOCKS_T N CUDA_NUM_THREADS

/-- Modelled from the spec: whether node `idx` of a Bit-Tree exists; `quadtree.hpp` is
absent from the sources.  Nodes are indexed in breadth-first order, node `i` having its
four children at `4 * i + 1 .. 4 * i + 4` (so the parent of `idx > 0` is `(idx - 1) / 4`),
and the tree has depth at most 3: 1 + 4 + 16 + 64 = 85 nodes.  The root exists, and another
node exists when its parent exists and is internal (bit set): "if a node is unset, none
of its descendants exist in the encoding". -/
def node_exists (tree : Nat → Bool) (idx : Nat) : Bool :=
  if idx = 0 then true
  else if idx ≤ 4 then tree 0
  else if idx ≤ 20 then tree 0 && tree ((idx - 1) / 4)
  else if idx ≤ 84 then tree 0 && tree (((idx - 1) / 4 - 1) / 4) && tree ((idx - 1) / 4)
  else false

/-- Modelled from the spec: whether node `idx` is a leaf: it exists and is not internal.
The bitset has 21 bits, one for each node of depth 0 to 2 ("bit i set: node i is internal;
unset: node i is a leaf"); a node of depth 3 (index 21 to 84) has no bit and is a leaf
whenever it exists. -/
def is_leaf (tree : Nat → Bool) (idx : Nat) : Bool :=
  node_exists tree idx && (decide (21 ≤ idx) || !tree idx)

/-- Modelled from the spec: the number of "leaves that precede node idx in breadth-first
traversal" (`leaf_rank`, spec 4.1), breadth-first order being the order of the indices. -/
def leaf_rank (tree : Nat → Bool) (idx : Nat) : Nat :=
  ((List.range idx).filter (is_leaf tree)).length

/-- Modelled from the spec: `tree_data_idx` of `quadtree.hpp`, absent from the sources
(`leaf_rank(tree, idx, feature_size)`, spec 4.1): the number of leaves that precede node
`bit_idx` in breadth-first traversal, "scaled by feature_size, giving the element offset
of that leaf's feature vector within the cell's local data block". -/
def tree_data_idx (tree : Nat → Bool) (bit_idx feature_size : Nat) : Nat :=
  leaf_rank tree bit_idx * feature_size

/-- Modelled from the spec: the number of leaves of a Bit-Tree, the amount by which
`prefix_leafs` grows over the cell ("prefix sums of leaf counts per cell"). -/
def n_leaves (tree : Nat → Bool) : Nat :=
  ((List.range 85).filter (is_leaf tree)).length

/-- The offset in the data buffer a call passes as its leaf vector: `data + src` of a
`save_data_to_tensor` call, `data + dst` of a `get_data_from_tensor` call. -/
def Call.addr : Call → Nat
  | Call.save _ src _ _ _ _ => src
  | Call.get dst _ _ _ _ => dst

/-- The bit indices the loops of `splitQuadToDense` (lines 97-146) compute, in the order of
the traversal, when every node is subdivided: `0`, then for each `(hl1, wl1)` the index
`bit_idx_l1` followed by, for each `(hl2, wl2)`, the index `bit_idx_l2` followed by its
four `bit_idx_l3`. -/
def dfsOrder : List Nat :=
  0 :: [0, 1].flatMap fun hl1 => [0, 1].flatMap fun wl1 =>
    let bit_idx_l1 := 1 + hl1 * 2 + wl1
    bit_idx_l1 :: [0, 1].flatMap fun hl2 => [0, 1].flatMap fun wl2 =>
      let bit_idx_l2 := child_idx bit_idx_l1 + hl2 * 2 + wl2
      bit_idx_l2 :: [0, 1].flatMap fun hl3 => [0, 1].flatMap fun wl3 =>
        [child_idx bit_idx_l2 + hl3 * 2 + wl3]

/-- The bit indices of the nodes for which the traversal of `splitQuadToDense` makes a
call (lines 97-146), in order: the nodes it reaches whose bit is not set, and the four
children of every subdivided node of depth 2. -/
def visited_leaves (grid_tree : Nat → Bool) : List Nat :=
  if tree_isset_bit grid_tree 0 then
    [0, 1].flatMap fun hl1 => [0, 1].flatMap fun wl1 =>
      let bit_idx_l1 := 1 + hl1 * 2 + wl1
      if tree_isset_bit grid_tree bit_idx_l1 then
        [0, 1].flatMap fun hl2 => [0, 1].flatMap fun wl2 =>
          let bit_idx_l2 := child_idx bit_idx_l1 + hl2 * 2 + wl2
          if tree_isset_bit grid_tree bit_idx_l2 then
            [0, 1].flatMap fun hl3 => [0, 1].flatMap fun wl3 =>
              [child_idx bit_idx_l2 + hl3 * 2 + wl3]
          else [bit_idx_l2]
      else [bit_idx_l1]
  else [0]

/-! ## Lemmas on the border fill -/

theorem Fills.refl {α : Type} [Zero α] (ref t : Mem α) : Fills ref t t :=
  fun _ => Or.inl rfl

theorem Fills.trans {α : Type} [Zero α] {ref t u v : Mem α} (h1 : Fills ref t u)
    (h2 : Fills ref u v) : Fills ref t v := by
  intro a
  rcases h2 a with h | ⟨h0, h⟩
  · rw [h]; exact h1 a
  · rcases h1 a with h' | ⟨h0', _⟩
    · exact Or.inr ⟨by rw [← h']; exact h0, h⟩
    · exact Or.inr ⟨h0', h⟩

theorem padNeighbour_fills {α : Type} [Zero α] [DecidableEq α] (nx ny : Nat) (ref : Mem α)
    (f : Int) (t : Mem α) (n : Int × Int) : Fills ref t (padNeighbour nx ny ref f t n) := by
  intro a
  unfold padNeighbour
  by_cases h : t (accIdx nx ny f n.1 n.2) = 0
  · rw [if_pos h]
    unfold Mem.store
    by_cases ha : a = accIdx nx ny f n.1 n.2
    · rw [if_pos ha]; subst ha; exact Or.inr ⟨h, rfl⟩
    · rw [if_neg ha]; exact Or.inl rfl
  · rw [if_neg h]; exact Or.inl rfl

theorem foldl_padNeighbour_fills {α : Type} [Zero α] [DecidableEq α] (nx ny : Nat)
    (ref : Mem α) (f : Int) (l : List (Int × Int)) (t : Mem α) :
    Fills ref t (l.foldl (padNeighbour nx ny ref f) t) := by
  induction l generalizing t with
  | nil => exact Fills.refl ref t
  | cons n l ih =>
    rw [List.foldl_cons]
    exact (padNeighbour_fills nx ny ref f t n).trans (ih _)

theorem padPixel_fills {α : Type} [Zero α] [DecidableEq α] (nx ny : Nat) (ref t : Mem α)
    (p : Nat × Nat × Nat) : Fills ref t (padPixel nx ny ref t p) := by
  unfold padPixel
  split
  · exact foldl_padNeighbour_fills nx ny ref _ _ t
  · exact Fills.refl ref t

theorem padPass_fills {α : Type} [Zero α] [DecidableEq α] (nx ny : Nat) (ref : Mem α)
    (order : List (Nat × Nat × Nat)) (t : Mem α) :
    Fills ref t (padPass nx ny ref order t) := by
  unfold padPass
  induction order generalizing t with
  | nil => exact Fills.refl ref t
  | cons p l ih =>
    rw [List.foldl_cons]
    exact (padPixel_fills nx ny ref t p).trans (ih _)

theorem padPass_append {α : Type} [Zero α] [DecidableEq α] (nx ny : Nat) (ref : Mem α)
    (l1 l2 : List (Nat × Nat × Nat)) (t : Mem α) :
    padPass nx ny ref (l1 ++ l2) t = padPass nx ny ref l2 (padPass nx ny ref l1 t) := by
  unfold padPass
  rw [List.foldl_append]

theorem padPass_cons {α : Type} [Zero α] [DecidableEq α] (nx ny : Nat) (ref : Mem α)
    (p : Nat × Nat × Nat) (l : List (Nat × Nat × Nat)) (t : Mem α) :
    padPass nx ny ref (p :: l) t = padPass nx ny ref l (padPixel nx ny ref t p) := by
  unfold padPass
  rw [List.foldl_cons]

theorem mem_padOrder {nf nx ny : Nat} {p : Nat × Nat × Nat} :
    p ∈ padOrder nf nx ny ↔ p.1 < nf ∧ p.2.1 < nx ∧ p.2.2 < ny := by
  obtain ⟨f, x, y⟩ := p
  simp only [padOrder, List.mem_flatMap, List.mem_map, List.mem_range, Prod.mk.injEq]
  constructor
  · rintro ⟨f', hf, x', hx, y', hy, rfl, rfl, rfl⟩
    exact ⟨hf, hx, hy⟩
  · rintro ⟨hf, hx, hy⟩
    exact ⟨f, hf, x, hx, y, hy, rfl, rfl, rfl⟩

/-- An element that holds the reference value keeps it. -/
theorem padNeighbour_done {α : Type} [Zero α] [DecidableEq α] (nx ny : Nat) (ref : Mem α)
    (f : Int) (t : Mem α) (n : Int × Int) (a : Int) (h : t a = ref a) :
    padNeighbour nx ny ref f t n a = ref a := by
  unfold padNeighbour
  split
  · unfold Mem.store
    split
    · next ha => rw [ha]
    · exact h
  · exact h

theorem foldl_padNeighbour_done {α : Type} [Zero α] [DecidableEq α] (nx ny : Nat)
    (ref : Mem α) (f : Int) (l : List (Int × Int)) (t : Mem α) (a : Int) (h : t a = ref a) :
    l.foldl (padNeighbour nx ny ref f) t a = ref a := by
  induction l generalizing t with
  | nil => exact h
  | cons n l ih =>
    rw [List.foldl_cons]
    exact ih _ (padNeighbour_done nx ny ref f t n a h)

theorem padPass_done {α : Type} [Zero α] [DecidableEq α] (nx ny : Nat) (ref : Mem α)
    (order : List (Nat × Nat × Nat)) (t : Mem α) (a : Int) (h : t a = ref a) :
    padPass nx ny ref order t a = ref a := by
  induction order generalizing t with
  | nil => exact h
  | cons p l ih =>
    rw [padPass_cons]
    apply ih
    unfold padPixel
    split
    · exact foldl_padNeighbour_done nx ny ref _ _ t a h
    · exact h

/-- After the guarded copy at a neighbour, the neighbour holds the reference value or
its old non-zero value. -/
theorem padNeighbour_at {α : Type} [Zero α] [DecidableEq α] (nx ny : Nat) (ref : Mem α)
    (f : Int) (t : Mem α) (n : Int × Int) :
    padNeighbour nx ny ref f t n (accIdx nx ny f n.1 n.2) = ref (accIdx nx ny f n.1 n.2) ∨
      (t (accIdx nx ny f n.1 n.2) ≠ 0 ∧
        padNeighbour nx ny ref f t n (accIdx nx ny f n.1 n.2) = t (accIdx nx ny f n.1 n.2)) := by
  unfold padNeighbour
  by_cases h : t (accIdx nx ny f n.1 n.2) = 0
  · rw [if_pos h]; left; simp [Mem.store]
  · rw [if_neg h]; right; exact ⟨h, rfl⟩

/-- Once a neighbour list containing `n` has been processed on a tensor that `Fills`
relates to an original in which `n` was zero, `n` holds the reference value. -/
theorem foldl_padNeighbour_mem {α : Type} [Zero α] [DecidableEq α] (nx ny : Nat)
    (ref : Mem α) (f : Int) (t0 : Mem α) (l : List (Int × Int)) (t : Mem α) (n : Int × Int)
    (hn : n ∈ l) (hF : Fills ref t0 t) (h0 : t0 (accIdx nx ny f n.1 n.2) = 0) :
    l.foldl (padNeighbour nx ny ref f) t (accIdx nx ny f n.1 n.2) =
      ref (accIdx nx ny f n.1 n.2) := by
  induction l generalizing t with
  | nil => cases hn
  | cons m l ih =>
    rw [List.foldl_cons]
    rcases List.mem_cons.1 hn with rfl | hn'
    · apply foldl_padNeighbour_done
      rcases padNeighbour_at nx ny ref f t n with h | ⟨hne, _⟩
      · exact h
      · rcases hF (accIdx nx ny f n.1 n.2) with h | ⟨_, h⟩
        · exact absurd (h.trans h0) hne
        · exact padNeighbour_done nx ny ref f t n _ h
    · exact ih _ hn' (hF.trans (padNeighbour_fills nx ny ref f t m))

/-- Every in-range axis-aligned neighbour is among the examined neighbours. -/
theorem mem_neighbours_of_axisNeighbour {nx ny x y x' y' : Nat} (hx : x < nx) (hy : y < ny)
    (hx' : x' < nx) (hy' : y' < ny) (h : axisNeighbour x y x' y') :
    ((x : Int), (y : Int)) ∈ neighbours nx ny x' y' := by
  unfold axisNeighbour at h
  unfold neighbours
  split_ifs <;> simp only [List.mem_cons, Prod.mk.injEq, List.mem_singleton, List.mem_nil_iff,
    or_false] <;> omega

/-- The examined neighbours are at distance one along an axis. -/
theorem axis_of_mem_neighbours {nx ny : Nat} {x y : Int} {n : Int × Int}
    (h : n ∈ neighbours nx ny x y) :
    (n.1 = x ∧ (n.2 = y + 1 ∨ n.2 + 1 = y)) ∨ (n.2 = y ∧ (n.1 = x + 1 ∨ n.1 + 1 = x)) := by
  obtain ⟨a, b⟩ := n
  unfold neighbours at h
  split_ifs at h <;> simp only [List.mem_cons, Prod.mk.injEq, List.mem_singleton,
    List.mem_nil_iff, or_false] at h <;> omega

/-- Quotient and remainder are determined by `a * n + b` when `0 ≤ b < n`. -/
theorem mul_add_inj {n a b a' b' : Int} (hb : 0 ≤ b) (hbn : b < n) (hb' : 0 ≤ b')
    (hbn' : b' < n) (h : a * n + b = a' * n + b') : a = a' ∧ b = b' := by
  have hn : 0 < n := lt_of_le_of_lt hb hbn
  have ha : a = a' := by
    rcases lt_trichotomy a a' with hlt | heq | hgt
    · exfalso
      have h1 : a + 1 ≤ a' := hlt
      have h2 : (a + 1) * n ≤ a' * n := Int.mul_le_mul_of_nonneg_right h1 hn.le
      have h3 : (a + 1) * n = a * n + n := by ring
      omega
    · exact heq
    · exfalso
      have h1 : a' + 1 ≤ a := hgt
      have h2 : (a' + 1) * n ≤ a * n := Int.mul_le_mul_of_nonneg_right h1 hn.le
      have h3 : (a' + 1) * n = a' * n + n := by ring
      omega
  subst ha
  exact ⟨rfl, by omega⟩

/-- In-range index triples have distinct offsets. -/
theorem accIdx_inj {nx ny : Nat} {f x y f' x' y' : Int} (hx : 0 ≤ x) (hxn : x < nx)
    (hy : 0 ≤ y) (hyn : y < ny) (hx' : 0 ≤ x') (hxn' : x' < nx) (hy' : 0 ≤ y')
    (hyn' : y' < ny) (h : accIdx nx ny f x y = accIdx nx ny f' x' y') :
    f = f' ∧ x = x' ∧ y = y' := by
  unfold accIdx at h
  obtain ⟨h1, h2⟩ := mul_add_inj hy hyn hy' hyn' h
  obtain ⟨h3, h4⟩ := mul_add_inj hx hxn hx' hxn' h1
  exact ⟨h3, h4, h2⟩

/-- A guarded copy changes at most its target. -/
theorem padNeighbour_frame {α : Type} [Zero α] [DecidableEq α] (nx ny : Nat) (ref : Mem α)
    (f : Int) (t : Mem α) (n : Int × Int) (a : Int) (ha : a ≠ accIdx nx ny f n.1 n.2) :
    padNeighbour nx ny ref f t n a = t a := by
  unfold padNeighbour
  split
  · unfold Mem.store
    rw [if_neg ha]
  · rfl

theorem foldl_padNeighbour_changed {α : Type} [Zero α] [DecidableEq α] (nx ny : Nat)
    (ref : Mem α) (f : Int) (l : List (Int × Int)) (t : Mem α) (a : Int)
    (h : l.foldl (padNeighbour nx ny ref f) t a ≠ t a) :
    ∃ n ∈ l, a = accIdx nx ny f n.1 n.2 := by
  induction l generalizing t with
  | nil => exact absurd rfl h
  | cons m l ih =>
    rw [List.foldl_cons] at h
    by_cases ha : a = accIdx nx ny f m.1 m.2
    · exact ⟨m, List.mem_cons_self _ _, ha⟩
    · rw [← padNeighbour_frame nx ny ref f t m a ha] at h
      obtain ⟨n, hn, hn'⟩ := ih _ h
      exact ⟨n, List.mem_cons_of_mem _ hn, hn'⟩

/-- An element that is zero before and non-zero after a run of the loop body over a
sequence of pixels is an examined neighbour of a pixel of the sequence that is non-zero
after the run. -/
theorem padPass_filled {α : Type} [Zero α] [DecidableEq α] (nx ny : Nat) (ref : Mem α)
    (order : List (Nat × Nat × Nat)) (t : Mem α) (a : Int) (h0 : t a = 0)
    (hne : padPass nx ny ref order t a ≠ 0) :
    ∃ p ∈ order, padPass nx ny ref order t (accIdx nx ny p.1 p.2.1 p.2.2) ≠ 0 ∧
      ∃ n ∈ neighbours nx ny p.2.1 p.2.2, a = accIdx nx ny p.1 n.1 n.2 := by
  induction order generalizing t with
  | nil => exact absurd h0 hne
  | cons p l ih =>
    by_cases h1 : padPixel nx ny ref t p a = 0
    · rw [padPass_cons] at hne
      obtain ⟨q, hq, hq1, hq2⟩ := ih _ h1 hne
      exact ⟨q, List.mem_cons_of_mem _ hq, by rw [padPass_cons]; exact hq1, hq2⟩
    · refine ⟨p, List.mem_cons_self _ _, ?_, ?_⟩
      · have hp : t (accIdx nx ny p.1 p.2.1 p.2.2) ≠ 0 := by
          intro hz
          apply h1
          unfold padPixel
          rw [if_neg (not_not.2 hz)]
          exact h0
        rcases padPass_fills nx ny ref (p :: l) t (accIdx nx ny p.1 p.2.1 p.2.2) with h | ⟨h, _⟩
        · rw [h]; exact hp
        · exact absurd h hp
      · unfold padPixel at h1
        split at h1
        · apply foldl_padNeighbour_changed nx ny ref p.1 _ t a
          rw [h0]; exact h1
        · exact absurd h0 h1

/-- A run of the loop body changes nothing when every examined neighbour of every
non-zero pixel of the sequence is non-zero. -/
theorem padPass_fixed {α : Type} [Zero α] [DecidableEq α] (nx ny : Nat) (ref : Mem α)
    (order : List (Nat × Nat × Nat)) (u : Mem α)
    (h : ∀ p ∈ order, u (accIdx nx ny p.1 p.2.1 p.2.2) ≠ 0 →
      ∀ n ∈ neighbours nx ny p.2.1 p.2.2, u (accIdx nx ny p.1 n.1 n.2) ≠ 0) :
    padPass nx ny ref order u = u := by
  induction order with
  | nil => rfl
  | cons p l ih =>
    rw [padPass_cons]
    have hp : padPixel nx ny ref u p = u := by
      unfold padPixel
      split
      · next hne =>
        have hall := h p (List.mem_cons_self _ _) hne
        generalize neighbours nx ny p.2.1 p.2.2 = ns at hall
        induction ns with
        | nil => rfl
        | cons n ns ihn =>
          rw [List.foldl_cons]
          have : padNeighbour nx ny ref (p.1 : Int) u n = u := by
            unfold padNeighbour
            rw [if_neg (hall n (List.mem_cons_self _ _))]
          rw [this]
          exact ihn (fun m hm => hall m (List.mem_cons_of_mem _ hm))
      · rfl
    rw [hp]
    exact ih (fun q hq => h q (List.mem_cons_of_mem _ hq))

/-- An examined neighbour whose element is that of a pixel off the border of the tensor
lies inside the tensor. -/
theorem inTensor_of_interior {nx ny : Nat} {f f' : Int} {x y x' y' : Nat} {n : Int × Int}
    (hx' : x' < nx) (hy' : y' < ny) (hx : 0 < x ∧ x + 1 < nx) (hy : 0 < y ∧ y + 1 < ny)
    (hn : n ∈ neighbours nx ny x' y')
    (e : accIdx nx ny f x y = accIdx nx ny f' n.1 n.2) : inTensor nx ny n := by
  obtain ⟨a, b⟩ := n
  have hax := axis_of_mem_neighbours hn
  simp only at hax e
  unfold accIdx at e
  unfold inTensor
  simp only
  have hy0 : (0 : Int) ≤ y := Int.natCast_nonneg y
  have hyn : (y : Int) < ny := by omega
  have hx0 : (0 : Int) ≤ x := Int.natCast_nonneg x
  have hxn : (x : Int) < nx := by omega
  by_cases hb : 0 ≤ b ∧ b < ny
  · obtain ⟨e1, _⟩ := mul_add_inj hy0 hyn hb.1 hb.2 e
    by_cases ha : 0 ≤ a ∧ a < nx
    · exact ⟨ha.1, ha.2, hb.1, hb.2⟩
    · exfalso
      have hcase : a = nx ∨ a = -1 := by omega
      rcases hcase with h | h
      · have e2 : f * nx + x = (f' + 1) * nx + 0 := by rw [e1, h]; ring
        obtain ⟨_, e3⟩ := mul_add_inj hx0 hxn (le_refl 0) (by omega) e2
        omega
      · have e2 : f * nx + x = (f' - 1) * nx + (nx - 1) := by rw [e1, h]; ring
        obtain ⟨_, e3⟩ := mul_add_inj hx0 hxn (by omega) (by omega) e2
        omega
  · exfalso
    have hcase : b = ny ∨ b = -1 := by omega
    rcases hcase with h | h
    · have e2 : (f * nx + x) * ny + y = (f' * nx + a + 1) * ny + 0 := by rw [e, h]; ring
      obtain ⟨_, e3⟩ := mul_add_inj hy0 hyn (le_refl 0) (by omega) e2
      omega
    · have e2 : (f * nx + x) * ny + y = (f' * nx + a - 1) * ny + (ny - 1) := by
        rw [e, h]; ring
      obtain ⟨_, e3⟩ := mul_add_inj hy0 hyn (by omega) (by omega) e2
      omega

/-! ## Lemmas on the decoder -/
/-- The tensor `out_l4_dst` is not written by any call. -/
theorem Call.exec_out_l4 {α : Type} (pool : Mem α → Nat → Nat → Nat → Nat → Nat → α)
    (tensor_h grid_height tensor_w feature_size : Nat) (s : SplitState α) (c : Call) :
    (c.exec pool tensor_h grid_height tensor_w feature_size s).out_l4_dst = s.out_l4_dst := by
  cases c with
  | get dst h1 h2 w1 w2 => rfl
  | save tier src h1 h2 w1 w2 =>
    match tier with
    | 0 => rfl
    | 1 => rfl
    | _ + 2 => rfl

theorem foldl_exec_out_l4 {α : Type} (pool : Mem α → Nat → Nat → Nat → Nat → Nat → α)
    (tensor_h grid_height tensor_w feature_size : Nat) (calls : List Call) (s : SplitState α) :
    (calls.foldl (Call.exec pool tensor_h grid_height tensor_w feature_size) s).out_l4_dst =
      s.out_l4_dst := by
  induction calls generalizing s with
  | nil => rfl
  | cons c l ih => rw [List.foldl_cons, ih, Call.exec_out_l4]

/-- The loop of `splitQuadToDense` leaves the tier-3 tensor `out_l4_dst` as it was. -/
theorem splitQuadToDense_loop_out_l4 {α : Type}
    (tree_data_idx : (Nat → Bool) → Nat → Nat → Nat)
    (pool : Mem α → Nat → Nat → Nat → Nat → Nat → α) (tensor_h tensor_w : Nat)
    (input_quad : quadtree α) (out_l1_dst out_l2_dst out_l3_dst out_l4_dst : Mem α) :
    (splitQuadToDense_loop tree_data_idx pool tensor_h tensor_w input_quad
      out_l1_dst out_l2_dst out_l3_dst out_l4_dst).out_l4_dst = out_l4_dst := by
  unfold splitQuadToDense_loop
  rw [foldl_exec_out_l4]
  rfl

/-- A call of `save_data_to_tensor` performs exactly the stores listed for it, each
storing the element of the data buffer at the listed index. -/
theorem save_data_to_tensor_eq_stores {α : Type} (data : Nat → α) (dst : Mem α)
    (tensor_h grid_height tensor_w feature_size tier src h1 h2 w1 w2 : Nat) :
    save_data_to_tensor (fun f => data (src + f)) dst tensor_h grid_height tensor_w
        feature_size h1 h2 w1 w2 =
      ((Call.save tier src h1 h2 w1 w2).stores tensor_h grid_height feature_size).foldl
        (fun d st => d.store (flatIdx tensor_h tensor_w st.f st.h st.w) (data st.src)) dst := by
  unfold save_data_to_tensor Call.stores
  rw [List.foldl_map]


theorem mem_two {i : Nat} : i ∈ [0, 1] ↔ i < 2 := by
  simp only [List.mem_cons, List.mem_singleton, List.mem_nil_iff, or_false]
  omega

/-- The `save_data_to_tensor` calls of a cell are those of its leaves of depth 0, 1, 2. -/
theorem mem_cell_calls_save {α : Type} (tree_data_idx : (Nat → Bool) → Nat → Nat → Nat)
    (q : quadtree α) (g tier src h1 h2 w1 w2 : Nat) :
    Call.save tier src h1 h2 w1 w2 ∈ cell_calls tree_data_idx q g ↔
      LeafCall tree_data_idx q g tier src h1 h2 w1 w2 := by
  unfold cell_calls LeafCall tree_isset_bit child_idx
  simp only []
  by_cases hb0 : q.trees g 0 = true
  · rw [if_pos hb0]
    simp only [List.mem_flatMap, mem_two]
    constructor
    · rintro ⟨hl1, hhl1, wl1, hwl1, h⟩
      by_cases hb1 : q.trees g (1 + hl1 * 2 + wl1) = true
      · rw [if_pos hb1] at h
        simp only [List.mem_flatMap, mem_two] at h
        obtain ⟨hl2, hhl2, wl2, hwl2, h⟩ := h
        by_cases hb2 : q.trees g (4 * (1 + hl1 * 2 + wl1) + 1 + hl2 * 2 + wl2) = true
        · rw [if_pos hb2] at h
          simp only [List.mem_flatMap, mem_two, List.mem_singleton] at h
          obtain ⟨_, _, _, _, h⟩ := h
          cases h
        · rw [if_neg hb2] at h
          simp only [List.mem_singleton, Call.save.injEq] at h
          obtain ⟨rfl, rfl, rfl, rfl, rfl, rfl⟩ := h
          right; right
          refine ⟨rfl, hb0, hl1, wl1, hl2, wl2, hhl1, hwl1, hhl2, hwl2, hb1, by simpa using hb2,
            rfl, ?_, ?_, ?_, ?_⟩ <;> omega
      · rw [if_neg hb1] at h
        simp only [List.mem_singleton, Call.save.injEq] at h
        obtain ⟨rfl, rfl, rfl, rfl, rfl, rfl⟩ := h
        right; left
        refine ⟨rfl, hb0, hl1, wl1, hhl1, hwl1, by simpa using hb1, rfl, ?_, ?_, ?_, ?_⟩ <;> omega
    · rintro (⟨_, h, _⟩ | ⟨rfl, _, hl1, wl1, hhl1, hwl1, hb1, rfl, rfl, rfl, rfl, rfl⟩ |
        ⟨rfl, _, hl1, wl1, hl2, wl2, hhl1, hwl1, hhl2, hwl2, hb1, hb2, rfl, rfl, rfl, rfl, rfl⟩)
      · rw [hb0] at h; cases h
      · refine ⟨hl1, hhl1, wl1, hwl1, ?_⟩
        rw [if_neg (by rw [hb1]; simp)]
        simp only [List.mem_singleton, Call.save.injEq, true_and]
        repeat' apply And.intro
        all_goals first | rfl | omega
      · refine ⟨hl1, hhl1, wl1, hwl1, ?_⟩
        rw [if_pos hb1]
        simp only [List.mem_flatMap, mem_two]
        refine ⟨hl2, hhl2, wl2, hwl2, ?_⟩
        rw [if_neg (by rw [hb2]; simp)]
        simp only [List.mem_singleton, Call.save.injEq, true_and]
        repeat' apply And.intro
        all_goals first | rfl | omega
  · rw [if_neg hb0]
    simp only [List.mem_singleton, Call.save.injEq]
    have hb0' : q.trees g 0 = false := by simpa using hb0
    constructor
    · rintro ⟨rfl, rfl, rfl, rfl, rfl, rfl⟩
      left
      refine ⟨rfl, hb0', rfl, ?_, ?_, ?_, ?_⟩ <;> omega
    · rintro (⟨rfl, _, rfl, rfl, rfl, rfl, rfl⟩ | ⟨_, h, _⟩ | ⟨_, h, _⟩)
      · refine ⟨rfl, rfl, ?_, ?_, ?_, ?_⟩ <;> omega
      · exact absurd h hb0
      · exact absurd h hb0

theorem mem_splitQuadToDense_calls {α : Type}
    (tree_data_idx : (Nat → Bool) → Nat → Nat → Nat) (q : quadtree α) (c : Call) :
    c ∈ splitQuadToDense_calls tree_data_idx q ↔
      ∃ g, g < q.num_blocks ∧ c ∈ cell_calls tree_data_idx q g := by
  unfold splitQuadToDense_calls
  simp only [List.mem_flatMap, List.mem_range]

theorem mem_loopRange {a b i : Nat} : i ∈ loopRange a b ↔ a ≤ i ∧ i < b := by
  unfold loopRange
  simp only [List.mem_map, List.mem_range]
  constructor
  · rintro ⟨j, hj, rfl⟩
    omega
  · rintro ⟨h1, h2⟩
    exact ⟨i - a, by omega, by omega⟩

theorem mem_save_data_to_tensor_idx {tensor_h grid_height feature_size h1 h2 w1 w2 : Nat}
    {p : Nat × Nat × Nat} :
    p ∈ save_data_to_tensor_idx tensor_h grid_height feature_size h1 h2 w1 w2 ↔
      (scaled tensor_h grid_height h1 ≤ p.1 ∧ p.1 < scaled tensor_h grid_height h2) ∧
      (scaled tensor_h grid_height w1 ≤ p.2.1 ∧ p.2.1 < scaled tensor_h grid_height w2) ∧
      p.2.2 < feature_size := by
  obtain ⟨h, w, f⟩ := p
  unfold save_data_to_tensor_idx
  simp only [List.mem_flatMap, List.mem_map, List.mem_range, mem_loopRange, Prod.mk.injEq]
  constructor
  · rintro ⟨h', hh, w', hw, f', hf, rfl, rfl, rfl⟩
    exact ⟨hh, hw, hf⟩
  · rintro ⟨hh, hw, hf⟩
    exact ⟨h, hh, w, hw, f, hf, rfl, rfl, rfl⟩

theorem scaled_mono (tensor_h grid_height : Nat) {v v' : Nat} (h : v ≤ v') :
    scaled tensor_h grid_height v ≤ scaled tensor_h grid_height v' := by
  unfold scaled
  exact Nat.div_le_div_right (Nat.mul_le_mul_right _ h)

theorem mem_stores_save {tensor_h grid_height feature_size tier src h1 h2 w1 w2 : Nat}
    {st : Store} :
    st ∈ (Call.save tier src h1 h2 w1 w2).stores tensor_h grid_height feature_size ↔
      st.tier = tier ∧ st.src = src + st.f ∧
      (scaled tensor_h grid_height h1 ≤ st.h ∧ st.h < scaled tensor_h grid_height h2) ∧
      (scaled tensor_h grid_height w1 ≤ st.w ∧ st.w < scaled tensor_h grid_height w2) ∧
      st.f < feature_size := by
  unfold Call.stores
  simp only [List.mem_map, mem_save_data_to_tensor_idx]
  constructor
  · rintro ⟨p, hp, rfl⟩
    exact ⟨rfl, rfl, hp⟩
  · rintro ⟨ht, hs, hp⟩
    refine ⟨(st.h, st.w, st.f), hp, ?_⟩
    cases st
    simp only [Store.mk.injEq] at *
    simp [ht, hs]

/-- A store of the run belongs to a leaf of depth 0, 1 or 2 of some cell and lies in the
scaled bounds of that leaf. -/
theorem mem_splitQuadToDense_stores {α : Type}
    (tree_data_idx : (Nat → Bool) → Nat → Nat → Nat) (tensor_h : Nat) (q : quadtree α)
    (st : Store) :
    st ∈ splitQuadToDense_stores tree_data_idx tensor_h q ↔
      ∃ g src h1 h2 w1 w2, g < q.num_blocks ∧
        LeafCall tree_data_idx q g st.tier src h1 h2 w1 w2 ∧ st.src = src + st.f ∧
        (scaled tensor_h q.grid_height h1 ≤ st.h ∧ st.h < scaled tensor_h q.grid_height h2) ∧
        (scaled tensor_h q.grid_height w1 ≤ st.w ∧ st.w < scaled tensor_h q.grid_height w2) ∧
        st.f < q.feature_size := by
  unfold splitQuadToDense_stores
  simp only [List.mem_flatMap, mem_splitQuadToDense_calls]
  constructor
  · rintro ⟨c, ⟨g, hg, hc⟩, hst⟩
    cases c with
    | get dst h1 h2 w1 w2 => simp [Call.stores] at hst
    | save tier src h1 h2 w1 w2 =>
      obtain ⟨ht, hs, hb⟩ := mem_stores_save.1 hst
      rw [mem_cell_calls_save] at hc
      exact ⟨g, src, h1, h2, w1, w2, hg, by rw [ht]; exact hc, hs, hb⟩
  · rintro ⟨g, src, h1, h2, w1, w2, hg, hc, hs, hb⟩
    exact ⟨Call.save st.tier src h1 h2 w1 w2, ⟨g, hg, (mem_cell_calls_save _ _ _ _ _ _ _ _ _).2 hc⟩,
      mem_stores_save.2 ⟨rfl, hs, hb⟩⟩

/-- The bounds of a leaf lie in the 8x8 block of its cell, and its tier is at most 2. -/
theorem LeafCall.bounds {α : Type} {tree_data_idx : (Nat → Bool) → Nat → Nat → Nat}
    {q : quadtree α} {g tier src h1 h2 w1 w2 : Nat}
    (h : LeafCall tree_data_idx q g tier src h1 h2 w1 w2) :
    tier ≤ 2 ∧ g % q.grid_width * 8 ≤ h1 ∧ h1 < h2 ∧ h2 ≤ g % q.grid_width * 8 + 8 ∧
      g / q.grid_width * 8 ≤ w1 ∧ w1 < w2 ∧ w2 ≤ g / q.grid_width * 8 + 8 := by
  unfold LeafCall at h
  rcases h with ⟨rfl, _, _, rfl, rfl, rfl, rfl⟩ |
    ⟨rfl, _, hl1, wl1, hhl1, hwl1, _, _, rfl, rfl, rfl, rfl⟩ |
    ⟨rfl, _, hl1, wl1, hl2, wl2, hhl1, hwl1, hhl2, hwl2, _, _, _, rfl, rfl, rfl, rfl⟩ <;>
  omega

/-- Two leaves whose bounds overlap in both directions are leaves of the same cell and of
the same depth. -/
theorem LeafCall.eq_of_overlap {α : Type} {tree_data_idx : (Nat → Bool) → Nat → Nat → Nat}
    {q : quadtree α} {g tier src h1 h2 w1 w2 g' tier' src' h1' h2' w1' w2' : Nat}
    (hA : LeafCall tree_data_idx q g tier src h1 h2 w1 w2)
    (hB : LeafCall tree_data_idx q g' tier' src' h1' h2' w1' w2')
    (hh : h1 < h2') (hh' : h1' < h2) (hw : w1 < w2') (hw' : w1' < w2) :
    g = g' ∧ tier = tier' := by
  have bA := hA.bounds
  have bB := hB.bounds
  have hmod : g % q.grid_width = g' % q.grid_width := by
    clear hA hB
    omega
  have hdiv : g / q.grid_width = g' / q.grid_width := by
    clear hA hB
    omega
  have hg : g = g' := by
    rw [← Nat.div_add_mod g q.grid_width, ← Nat.div_add_mod g' q.grid_width, hmod, hdiv]
  subst hg
  refine ⟨rfl, ?_⟩
  unfold LeafCall at hA hB
  rcases hA with ⟨rfl, a0, _, rfl, rfl, rfl, rfl⟩ |
    ⟨rfl, a0, hl1, wl1, hhl1, hwl1, a1, _, rfl, rfl, rfl, rfl⟩ |
    ⟨rfl, a0, hl1, wl1, hl2, wl2, hhl1, hwl1, hhl2, hwl2, a1, a2, _, rfl, rfl, rfl, rfl⟩ <;>
  rcases hB with ⟨rfl, b0, _, rfl, rfl, rfl, rfl⟩ |
    ⟨rfl, b0, kl1, vl1, hkl1, hvl1, b1, _, rfl, rfl, rfl, rfl⟩ |
    ⟨rfl, b0, kl1, vl1, kl2, vl2, hkl1, hvl1, hkl2, hvl2, b1, b2, _, rfl, rfl, rfl, rfl⟩
  · rfl
  · rw [a0] at b0; cases b0
  · rw [a0] at b0; cases b0
  · rw [a0] at b0; cases b0
  · rfl
  · have e1 : hl1 = kl1 := by omega
    have e2 : wl1 = vl1 := by omega
    subst e1 e2
    rw [a1] at b1; cases b1
  · rw [a0] at b0; cases b0
  · have e1 : hl1 = kl1 := by omega
    have e2 : wl1 = vl1 := by omega
    subst e1 e2
    rw [a1] at b1; cases b1
  · rfl

/-- In-range index triples have distinct flat indices. -/
theorem flatIdx_inj {tensor_h tensor_w f h w f' h' w' : Nat} (hh : h < tensor_h)
    (hw : w < tensor_w) (hh' : h' < tensor_h) (hw' : w' < tensor_w)
    (e : flatIdx tensor_h tensor_w f h w = flatIdx tensor_h tensor_w f' h' w') :
    f = f' ∧ h = h' ∧ w = w' := by
  unfold flatIdx at e
  have e' : (((f : Int) * tensor_h + h) * tensor_w + w) =
      (((f' : Int) * tensor_h + h') * tensor_w + w') := by exact_mod_cast e
  obtain ⟨e1, e2⟩ := mul_add_inj (Int.natCast_nonneg w) (Int.ofNat_lt.2 hw)
    (Int.natCast_nonneg w') (Int.ofNat_lt.2 hw') e'
  obtain ⟨e3, e4⟩ := mul_add_inj (Int.natCast_nonneg h) (Int.ofNat_lt.2 hh)
    (Int.natCast_nonneg h') (Int.ofNat_lt.2 hh') e1
  exact ⟨by exact_mod_cast e3, by exact_mod_cast e4, by exact_mod_cast e2⟩

/-- Stores at other indices leave an element as it was. -/
theorem foldl_store_frame {α β : Type} (k : β → Int) (v : β → α) (l : List β) (dst : Mem α)
    (a : Int) (h : ∀ p ∈ l, k p ≠ a) :
    l.foldl (fun d p => d.store (k p) (v p)) dst a = dst a := by
  induction l generalizing dst with
  | nil => rfl
  | cons p l ih =>
    rw [List.foldl_cons, ih _ (fun p' hp' => h p' (List.mem_cons_of_mem _ hp'))]
    unfold Mem.store
    rw [if_neg (fun e => h p (List.mem_cons_self _ _) e.symm)]

/-- A call changes a tier tensor only at the flat indices of its stores on that tier. -/
theorem Call.exec_tier_frame {α : Type} (pool : Mem α → Nat → Nat → Nat → Nat → Nat → α)
    (tensor_h grid_height tensor_w feature_size : Nat) (s : SplitState α) (c : Call)
    (k : Nat) (a : Int)
    (hle : ∀ tier src h1 h2 w1 w2, c = Call.save tier src h1 h2 w1 w2 → tier ≤ 2)
    (h : ∀ st ∈ c.stores tensor_h grid_height feature_size, st.tier = k →
      flatIdx tensor_h tensor_w st.f st.h st.w ≠ a) :
    (c.exec pool tensor_h grid_height tensor_w feature_size s).tier k a = s.tier k a := by
  cases c with
  | get dst h1 h2 w1 w2 =>
    match k with
    | 0 => rfl
    | 1 => rfl
    | 2 => rfl
    | _ + 3 => rfl
  | save tier src h1 h2 w1 w2 =>
    have hle' := hle tier src h1 h2 w1 w2 rfl
    by_cases hk : tier = k
    · subst hk
      have hfr : save_data_to_tensor (fun f => s.data (src + f)) (s.tier tier) tensor_h
          grid_height tensor_w feature_size h1 h2 w1 w2 a = s.tier tier a := by
        rw [save_data_to_tensor_eq_stores s.data (s.tier tier) tensor_h grid_height tensor_w
          feature_size tier src h1 h2 w1 w2]
        exact foldl_store_frame (fun st : Store => flatIdx tensor_h tensor_w st.f st.h st.w)
          (fun st : Store => s.data st.src) _ _ _
          (fun st hst => h st hst (mem_stores_save.1 hst).1)
      match tier, hle' with
      | 0, _ => exact hfr
      | 1, _ => exact hfr
      | 2, _ => exact hfr
    · match tier, hle', k, hk with
      | 0, _, 0, hk => exact absurd rfl hk
      | 0, _, 1, _ => rfl
      | 0, _, 2, _ => rfl
      | 0, _, _ + 3, _ => rfl
      | 1, _, 0, _ => rfl
      | 1, _, 1, hk => exact absurd rfl hk
      | 1, _, 2, _ => rfl
      | 1, _, _ + 3, _ => rfl
      | 2, _, 0, _ => rfl
      | 2, _, 1, _ => rfl
      | 2, _, 2, hk => exact absurd rfl hk
      | 2, _, _ + 3, _ => rfl

theorem foldl_exec_tier_frame {α : Type} (pool : Mem α → Nat → Nat → Nat → Nat → Nat → α)
    (tensor_h grid_height tensor_w feature_size : Nat) (calls : List Call) (s : SplitState α)
    (k : Nat) (a : Int)
    (hle : ∀ tier src h1 h2 w1 w2, Call.save tier src h1 h2 w1 w2 ∈ calls → tier ≤ 2)
    (h : ∀ c ∈ calls, ∀ st ∈ c.stores tensor_h grid_height feature_size, st.tier = k →
      flatIdx tensor_h tensor_w st.f st.h st.w ≠ a) :
    (calls.foldl (Call.exec pool tensor_h grid_height tensor_w feature_size) s).tier k a =
      s.tier k a := by
  induction calls generalizing s with
  | nil => rfl
  | cons c l ih =>
    rw [List.foldl_cons,
      ih _ (fun t src h1 h2 w1 w2 hm => hle t src h1 h2 w1 w2 (List.mem_cons_of_mem _ hm))
        (fun c' hc' => h c' (List.mem_cons_of_mem _ hc'))]
    apply Call.exec_tier_frame
    · intro t src h1 h2 w1 w2 e
      exact hle t src h1 h2 w1 w2 (e ▸ List.mem_cons_self _ _)
    · exact h c (List.mem_cons_self _ _)

/-- An element of a tier tensor at whose flat index the run performs no store on that tier
is left as it was. -/
theorem splitQuadToDense_loop_tier_frame {α : Type}
    (tree_data_idx : (Nat → Bool) → Nat → Nat → Nat)
    (pool : Mem α → Nat → Nat → Nat → Nat → Nat → α) (tensor_h tensor_w : Nat)
    (q : quadtree α) (out_l1_dst out_l2_dst out_l3_dst out_l4_dst : Mem α) (k : Nat) (a : Int)
    (h : ∀ st ∈ splitQuadToDense_stores tree_data_idx tensor_h q, st.tier = k →
      flatIdx tensor_h tensor_w st.f st.h st.w ≠ a) :
    (splitQuadToDense_loop tree_data_idx pool tensor_h tensor_w q
      out_l1_dst out_l2_dst out_l3_dst out_l4_dst).tier k a =
    (SplitState.entry q out_l1_dst out_l2_dst out_l3_dst out_l4_dst).tier k a := by
  unfold splitQuadToDense_loop
  apply foldl_exec_tier_frame
  · intro t src h1 h2 w1 w2 hm
    obtain ⟨g, _, hc⟩ := (mem_splitQuadToDense_calls _ _ _).1 hm
    exact ((mem_cell_calls_save _ _ _ _ _ _ _ _ _).1 hc).bounds.1
  · intro c hc st hst
    apply h
    unfold splitQuadToDense_stores
    exact List.mem_flatMap.2 ⟨c, hc, hst⟩

/-- On a run whose stores all lie inside the tensor (row below `tensor_h`, column below
`tensor_w`), started on zero tensors, every pixel is non-zero in at most one of the four
tier tensors. -/
theorem splitQuadToDense_loop_tiers_disjoint {α : Type} [Zero α]
    (tree_data_idx : (Nat → Bool) → Nat → Nat → Nat)
    (pool : Mem α → Nat → Nat → Nat → Nat → Nat → α) (tensor_h tensor_w : Nat)
    (q : quadtree α)
    (hin : ∀ st ∈ splitQuadToDense_stores tree_data_idx tensor_h q,
      st.h < tensor_h ∧ st.w < tensor_w)
    (f row col i j : Nat) (hrow : row < tensor_h) (hcol : col < tensor_w) (hij : i ≠ j) :
    (splitQuadToDense_loop tree_data_idx pool tensor_h tensor_w q
        (fun _ => 0) (fun _ => 0) (fun _ => 0) (fun _ => 0)).tier i
          (flatIdx tensor_h tensor_w f row col) = 0 ∨
    (splitQuadToDense_loop tree_data_idx pool tensor_h tensor_w q
        (fun _ => 0) (fun _ => 0) (fun _ => 0) (fun _ => 0)).tier j
          (flatIdx tensor_h tensor_w f row col) = 0 := by
  have hz : ∀ k : Nat, (SplitState.entry q (fun _ => (0 : α)) (fun _ => 0) (fun _ => 0)
      (fun _ => 0)).tier k (flatIdx tensor_h tensor_w f row col) = 0 := by
    intro k
    match k with
    | 0 => rfl
    | 1 => rfl
    | 2 => rfl
    | _ + 3 => rfl
  by_contra hcon
  rw [not_or] at hcon
  obtain ⟨hi, hj⟩ := hcon
  have key : ∀ k : Nat, (splitQuadToDense_loop tree_data_idx pool tensor_h tensor_w q
        (fun _ => 0) (fun _ => 0) (fun _ => 0) (fun _ => 0)).tier k
          (flatIdx tensor_h tensor_w f row col) ≠ 0 →
      ∃ st ∈ splitQuadToDense_stores tree_data_idx tensor_h q, st.tier = k ∧
        st.h = row ∧ st.w = col := by
    intro k hk
    by_contra hno
    apply hk
    rw [splitQuadToDense_loop_tier_frame, hz]
    intro st hst htier e
    apply hno
    obtain ⟨h1, h2⟩ := hin st hst
    obtain ⟨_, e2, e3⟩ := flatIdx_inj h1 h2 hrow hcol e
    exact ⟨st, hst, htier, e2, e3⟩
  obtain ⟨st, hst, ht, hh, hw⟩ := key i hi
  obtain ⟨st', hst', ht', hh', hw'⟩ := key j hj
  obtain ⟨g, src, h1, h2, w1, w2, _, hA, _, hbh, hbw, _⟩ :=
    (mem_splitQuadToDense_stores _ _ _ _).1 hst
  obtain ⟨g', src', h1', h2', w1', w2', _, hB, _, hbh', hbw', _⟩ :=
    (mem_splitQuadToDense_stores _ _ _ _).1 hst'
  have lt_of {v v' x : Nat} (hx : scaled tensor_h q.grid_height v ≤ x)
      (hx' : x < scaled tensor_h q.grid_height v') : v < v' := by
    by_contra hge
    have := scaled_mono tensor_h q.grid_height (Nat.le_of_not_lt hge)
    omega
  rw [hh] at hbh
  rw [hh'] at hbh'
  rw [hw] at hbw
  rw [hw'] at hbw'
  obtain ⟨_, e⟩ := hA.eq_of_overlap hB (lt_of hbh.1 hbh'.2) (lt_of hbh'.1 hbh.2)
    (lt_of hbw.1 hbw'.2) (lt_of hbw'.1 hbw.2)
  exact hij (by rw [← ht, ← ht', e])

/-! ## The decoder: claims C1 to C5 -/

/-- C1 (failing input): on the concrete scenario (2x2 cells, tensors 16x16, one channel)
the `assert` of `splitQuadToDense` fails, since `(float)16 / 2 = 8` differs from
`(float)2 / 16 = 0.125`; and the loop itself, run without the `assert`, leaves the tier-3
tensor zero everywhere, so the value 1.0 never appears in it. -/
theorem splitQuadToDense_concrete_scenario
    (tree_data_idx : (Nat → Bool) → Nat → Nat → Nat)
    (pool : Mem Int → Nat → Nat → Nat → Nat → Nat → Int) :
    splitQuadToDense tree_data_idx pool 1 16 16 concreteScenario
      (fun _ => 0) (fun _ => 0) (fun _ => 0) (fun _ => 0) = none ∧
    (splitQuadToDense_loop tree_data_idx pool 16 16 concreteScenario
      (fun _ => 0) (fun _ => 0) (fun _ => 0) (fun _ => 0)).out_l4_dst = fun _ => 0 :=
  ⟨rfl, splitQuadToDense_loop_out_l4 _ _ _ _ _ _ _ _ _⟩

/-- C2 (failing input): a grid of 16 rows and 2 columns of cells, all of them root leaves,
cell `g` holding the value `g + 1`, decoded into one-channel tensors with 2 rows and 16
columns.  The `assert` passes and every store is in range.  The pixel at row 1, column 0
of the tier-0 tensor receives 2, the value of cell `(0, 1)` (grid row 0, grid column 1),
not 3, the value of cell `(1, 0)`: tensor rows follow the grid column index. -/
theorem splitQuadToDense_rows_follow_grid_columns
    (tree_data_idx : (Nat → Bool) → Nat → Nat → Nat)
    (pool : Mem Int → Nat → Nat → Nat → Nat → Nat → Int) :
    (splitQuadToDense tree_data_idx pool 1 2 16 transposedGrid
      (fun _ => 0) (fun _ => 0) (fun _ => 0) (fun _ => 0)).map
        (fun s => s.out_l1_dst (flatIdx 2 16 0 1 0)) = some 2 ∧
    transposedGrid.data
      (transposedGrid.feature_size * transposedGrid.prefix_leafs (0 * 2 + 1)) = 2 ∧
    transposedGrid.data
      (transposedGrid.feature_size * transposedGrid.prefix_leafs (1 * 2 + 0)) = 3 ∧
    (∀ st ∈ splitQuadToDense_stores tree_data_idx 2 transposedGrid, st.h < 2 ∧ st.w < 16) :=
  ⟨rfl, rfl, rfl, of_decide_eq_true rfl⟩

/-- On the grid of 24 rows and 2 columns of cells decoded into tensors with 3 rows and 16
columns, whatever the leaf-offset helper and the pooling reduction are (no leaf is at
depth 3 and all leaf values are 1), the pixel at row 1, column 0 ends as 1 both in the
tier-0 and in the tier-1 tensor, and every flat index written is below 48. -/
theorem aliasGrid_run (tree_data_idx : (Nat → Bool) → Nat → Nat → Nat)
    (pool : Mem Int → Nat → Nat → Nat → Nat → Nat → Int) :
    (splitQuadToDense tree_data_idx pool 1 3 16 aliasGrid
      (fun _ => 0) (fun _ => 0) (fun _ => 0) (fun _ => 0)).map
        (fun s => (s.tier 0 (flatIdx 3 16 0 1 0), s.tier 1 (flatIdx 3 16 0 1 0))) =
      some (1, 1) ∧
    (∀ st ∈ splitQuadToDense_stores tree_data_idx 3 aliasGrid,
      flatIdx 3 16 st.f st.h st.w < 1 * 3 * 16) :=
  ⟨rfl, of_decide_eq_true rfl⟩

/-- C3 (failing input): a grid of 24 rows and 2 columns of cells decoded into one-channel
zero tensors with 3 rows and 16 columns (scale factor 3/24 = 0.125, an exact `float`; the
`assert` passes since 2/16 = 0.125).  Cell 1 is subdivided once, every other cell is a
root leaf, every leaf value is 1.  The root leaf of cell 32 is stored in the tier-0 tensor
at row 0, column 16, one column beyond the last one, which is flat index 16; the depth-1
leaf `(hl1, wl1) = (1, 1)` of cell 1 is stored in the tier-1 tensor at row 1, column 0,
flat index 16 too.  So the pixel at row 1, column 0 is non-zero in two tier tensors, while
every flat index written lies below 48, the size of the tensors. -/
theorem splitQuadToDense_two_tiers_nonzero :
    (splitQuadToDense sampleOffset poolZero 1 3 16 aliasGrid
      (fun _ => 0) (fun _ => 0) (fun _ => 0) (fun _ => 0)).map
        (fun s => (s.tier 0 (flatIdx 3 16 0 1 0), s.tier 1 (flatIdx 3 16 0 1 0))) =
      some (1, 1) ∧
    (∀ st ∈ splitQuadToDense_stores sampleOffset 3 aliasGrid,
      flatIdx 3 16 st.f st.h st.w < 1 * 3 * 16) ∧
    splitQuadToDense_check 1 3 16 aliasGrid = true ∧
    ({ tier := 0, f := 0, h := 0, w := 16, src := 35 } : Store) ∈
      splitQuadToDense_stores sampleOffset 3 aliasGrid ∧
    ({ tier := 1, f := 0, h := 1, w := 0, src := 4 } : Store) ∈
      splitQuadToDense_stores sampleOffset 3 aliasGrid ∧
    flatIdx 3 16 0 0 16 = flatIdx 3 16 0 1 0 :=
  ⟨(aliasGrid_run sampleOffset poolZero).1, (aliasGrid_run sampleOffset poolZero).2, rfl,
    of_decide_eq_true rfl, of_decide_eq_true rfl, rfl⟩

/-- C4 (counterexample): with 2x1 cells and tensors with 1 row and 2 columns the scale
factor is 1/2, not an integer, and `splitQuadToDense` does not fail: the `assert` compares
1/2 with 1/2. -/
theorem splitQuadToDense_accepts_fractional_scale :
    (splitQuadToDense sampleOffset poolZero 1 1 2 halfScaleGrid
      (fun _ => 0) (fun _ => 0) (fun _ => 0) (fun _ => 0)).isSome = true ∧
    ¬ (halfScaleGrid.grid_height ∣ 1) :=
  ⟨rfl, by decide⟩

/-- C4 (amended): `splitQuadToDense` fails whenever the channel count `f` differs from the
`feature_size` of the structure. -/
theorem splitQuadToDense_rejects_channel_mismatch {α : Type}
    (tree_data_idx : (Nat → Bool) → Nat → Nat → Nat)
    (pool : Mem α → Nat → Nat → Nat → Nat → Nat → α) (f tensor_h tensor_w : Nat)
    (input_quad : quadtree α) (out_l1_dst out_l2_dst out_l3_dst out_l4_dst : Mem α)
    (h : f ≠ input_quad.feature_size) :
    splitQuadToDense tree_data_idx pool f tensor_h tensor_w input_quad
      out_l1_dst out_l2_dst out_l3_dst out_l4_dst = none := by
  unfold splitQuadToDense splitQuadToDense_check
  simp [h]

/-- Witness of C4 (amended): three channels against a structure with one. -/
theorem splitQuadToDense_rejects_channel_mismatch_witness :
    splitQuadToDense sampleOffset poolZero 3 1 8 columnGrid
      (fun _ => 0) (fun _ => 0) (fun _ => 0) (fun _ => 0) = none :=
  splitQuadToDense_rejects_channel_mismatch sampleOffset poolZero 3 1 8 columnGrid
    (fun _ => 0) (fun _ => 0) (fun _ => 0) (fun _ => 0) (by decide)

/-- C5: structure-only addressing.  Two structures that agree on `grid_height`,
`grid_width`, `feature_size`, `trees` and `prefix_leafs`, whatever their data buffers,
pass or fail the `assert` alike and give rise to the same sequence of stores: the same
tier, channel, row and column, each filled from the same index of the data buffer. -/
theorem splitQuadToDense_structure_only {α : Type}
    (tree_data_idx : (Nat → Bool) → Nat → Nat → Nat) (f tensor_h tensor_w : Nat)
    (q1 q2 : quadtree α) (hgh : q1.grid_height = q2.grid_height)
    (hgw : q1.grid_width = q2.grid_width) (hfs : q1.feature_size = q2.feature_size)
    (htrees : q1.trees = q2.trees) (hpl : q1.prefix_leafs = q2.prefix_leafs) :
    splitQuadToDense_check f tensor_h tensor_w q1 =
      splitQuadToDense_check f tensor_h tensor_w q2 ∧
    splitQuadToDense_calls tree_data_idx q1 = splitQuadToDense_calls tree_data_idx q2 ∧
    splitQuadToDense_stores tree_data_idx tensor_h q1 =
      splitQuadToDense_stores tree_data_idx tensor_h q2 := by
  have hcalls :
      splitQuadToDense_calls tree_data_idx q1 = splitQuadToDense_calls tree_data_idx q2 := by
    unfold splitQuadToDense_calls quadtree.num_blocks
    rw [hgh, hgw]
    congr 1
    funext g
    unfold cell_calls
    rw [hgw, hfs, htrees, hpl]
  refine ⟨?_, hcalls, ?_⟩
  · unfold splitQuadToDense_check
    rw [hgh, hgw, hfs]
  · unfold splitQuadToDense_stores
    rw [hcalls, hgh, hfs]

/-- Witness of C5: the column grid and the same grid with every leaf value replaced by 7
perform the same stores. -/
theorem splitQuadToDense_structure_only_witness :
    splitQuadToDense_check 1 1 8 columnGrid =
      splitQuadToDense_check 1 1 8 { columnGrid with data := fun _ => 7 } ∧
    splitQuadToDense_calls sampleOffset columnGrid =
      splitQuadToDense_calls sampleOffset { columnGrid with data := fun _ => 7 } ∧
    splitQuadToDense_stores sampleOffset 1 columnGrid =
      splitQuadToDense_stores sampleOffset 1 { columnGrid with data := fun _ => 7 } :=
  splitQuadToDense_structure_only sampleOffset 1 1 8 columnGrid
    { columnGrid with data := fun _ => 7 } rfl rfl rfl rfl rfl

/-! ## The border fill: claims C6 to C10 -/

/-- C6 (counterexample): on the 2x2 tensor `[[0, 0], [0, 1]]` with a reference that is 5
everywhere, the first pass gives `[[0, 5], [5, 1]]` and a second pass changes the element
at `(0, 0, 0)` from 0 to 5, so two passes differ from one pass. -/
theorem get_padded_tensor_not_idempotent :
    get_padded_tensor 1 2 2 (ofList [0, 0, 0, 1]) (fun _ => 5) (accIdx 2 2 0 0 0) = 0 ∧
    get_padded_tensor 1 2 2 (get_padded_tensor 1 2 2 (ofList [0, 0, 0, 1]) (fun _ => 5))
      (fun _ => 5) (accIdx 2 2 0 0 0) = 5 := by
  decide

/-- C6 (amended): when, after the first pass, every neighbour the pass examines for a
non-zero pixel is itself non-zero, a second pass of `get_padded_tensor` with the same
reference changes no element. -/
theorem get_padded_tensor_idempotent_of_closed {α : Type} [Zero α] [DecidableEq α]
    (nf nx ny : Nat) (t ref : Mem α)
    (hclosed : ∀ f, f < nf → ∀ x, x < nx → ∀ y, y < ny →
      get_padded_tensor nf nx ny t ref (accIdx nx ny f x y) ≠ 0 →
      ∀ n ∈ neighbours nx ny x y,
        get_padded_tensor nf nx ny t ref (accIdx nx ny f n.1 n.2) ≠ 0) :
    get_padded_tensor nf nx ny (get_padded_tensor nf nx ny t ref) ref =
      get_padded_tensor nf nx ny t ref := by
  generalize get_padded_tensor nf nx ny t ref = u at hclosed
  unfold get_padded_tensor
  apply padPass_fixed
  intro p hp hne n hn
  obtain ⟨hf, hx, hy⟩ := mem_padOrder.1 hp
  exact hclosed p.1 hf p.2.1 hx p.2.2 hy hne n hn

/-- Witness of C6 (amended): the 2x2 tensor `[[1, 0], [0, 0]]` with a reference that is 5
everywhere is filled completely by the first pass, and the second pass changes
nothing. -/
theorem get_padded_tensor_idempotent_of_closed_witness :
    get_padded_tensor 1 2 2 (get_padded_tensor 1 2 2 (ofList [1, 0, 0, 0]) (fun _ => 5))
      (fun _ => 5) = get_padded_tensor 1 2 2 (ofList [1, 0, 0, 0]) (fun _ => 5) :=
  get_padded_tensor_idempotent_of_closed 1 2 2 (ofList [1, 0, 0, 0]) (fun _ => 5) (by decide)

/-- C7: `get_padded_tensor` never overwrites a non-zero value.  For every tensor,
reference and position: an element that is non-zero before the pass is unchanged after
it, and an element that is zero before the pass is afterwards still zero or equal to the
reference at the same position. -/
theorem get_padded_tensor_frame {α : Type} [Zero α] [DecidableEq α] (nf nx ny : Nat)
    (t ref : Mem α) (f x y : Nat) :
    (t (accIdx nx ny f x y) ≠ 0 →
      get_padded_tensor nf nx ny t ref (accIdx nx ny f x y) = t (accIdx nx ny f x y)) ∧
    (t (accIdx nx ny f x y) = 0 →
      get_padded_tensor nf nx ny t ref (accIdx nx ny f x y) = 0 ∨
      get_padded_tensor nf nx ny t ref (accIdx nx ny f x y) = ref (accIdx nx ny f x y)) := by
  have h := padPass_fills nx ny ref (padOrder nf nx ny) t (accIdx nx ny f x y)
  unfold get_padded_tensor
  constructor
  · intro hne
    rcases h with h | ⟨h, _⟩
    · exact h
    · exact absurd h hne
  · intro h0
    rcases h with h | ⟨_, h⟩
    · exact Or.inl (h.trans h0)
    · exact Or.inr h

/-- Witness of C7: in the 2x2 tensor `[[0, 0], [0, 1]]` with reference 5 everywhere the
non-zero element at `(0, 1, 1)` keeps its value 1, and the zero element at `(0, 0, 1)`
ends as 0 or as the reference value. -/
theorem get_padded_tensor_frame_witness :
    get_padded_tensor 1 2 2 (ofList [0, 0, 0, 1]) (fun _ => 5) (accIdx 2 2 (0 : Nat) (1 : Nat) (1 : Nat)) =
      ofList [0, 0, 0, 1] (accIdx 2 2 (0 : Nat) (1 : Nat) (1 : Nat)) ∧
    (get_padded_tensor 1 2 2 (ofList [0, 0, 0, 1]) (fun _ => 5) (accIdx 2 2 (0 : Nat) (0 : Nat) (1 : Nat)) = 0 ∨
      get_padded_tensor 1 2 2 (ofList [0, 0, 0, 1]) (fun _ => 5) (accIdx 2 2 (0 : Nat) (0 : Nat) (1 : Nat)) =
        (fun _ => 5 : Mem Int) (accIdx 2 2 (0 : Nat) (0 : Nat) (1 : Nat))) :=
  ⟨(get_padded_tensor_frame 1 2 2 (ofList [0, 0, 0, 1]) (fun _ => 5) 0 1 1).1 (by decide),
   (get_padded_tensor_frame 1 2 2 (ofList [0, 0, 0, 1]) (fun _ => 5) 0 0 1).2 (by decide)⟩

/-- C8 (counterexample): in the 2x2 tensor `[[1, 0], [0, 0]]` with reference 5 everywhere,
the element at `(0, 1, 1)` is zero in the input and so are its two in-range neighbours
`(0, 0, 1)` and `(0, 1, 0)`, yet it is 5 after the pass: the pass fills `(0, 0, 1)` from
the pixel `(0, 0, 0)` and then, reading the tensor it is writing, fills `(0, 1, 1)` from
the freshly filled `(0, 0, 1)`. -/
theorem get_padded_tensor_chases_gap :
    ofList [1, 0, 0, 0] (accIdx 2 2 0 1 1) = 0 ∧
    ofList [1, 0, 0, 0] (accIdx 2 2 0 0 1) = 0 ∧
    ofList [1, 0, 0, 0] (accIdx 2 2 0 1 0) = 0 ∧
    get_padded_tensor 1 2 2 (ofList [1, 0, 0, 0]) (fun _ => 5) (accIdx 2 2 0 1 1) = 5 := by
  decide

/-- C8 (amended): a position that is zero in the input and none of whose in-range
axis-aligned neighbours (same channel) is non-zero after the pass is still zero after the
pass.  This holds for every position off the border of the tensor, and for a position on
the border on a run in which every neighbour examined for a pixel that is non-zero after
the pass lies inside the tensor. -/
theorem get_padded_tensor_zero_stays {α : Type} [Zero α] [DecidableEq α] (nf nx ny : Nat)
    (t ref : Mem α) (f x y : Nat) (hx : x < nx) (hy : y < ny)
    (hsafe : (0 < x ∧ x + 1 < nx ∧ 0 < y ∧ y + 1 < ny) ∨
      ∀ f', f' < nf → ∀ x', x' < nx → ∀ y', y' < ny →
        get_padded_tensor nf nx ny t ref (accIdx nx ny f' x' y') ≠ 0 →
        ∀ n ∈ neighbours nx ny x' y', inTensor nx ny n)
    (h0 : t (accIdx nx ny f x y) = 0)
    (hnb : ∀ x', x' < nx → ∀ y', y' < ny → axisNeighbour x y x' y' →
      get_padded_tensor nf nx ny t ref (accIdx nx ny f x' y') = 0) :
    get_padded_tensor nf nx ny t ref (accIdx nx ny f x y) = 0 := by
  by_contra hne
  obtain ⟨p, hp, hpne, n, hn, ha⟩ :=
    padPass_filled nx ny ref (padOrder nf nx ny) t (accIdx nx ny f x y) h0 hne
  obtain ⟨hf', hx', hy'⟩ := mem_padOrder.1 hp
  have hin : inTensor nx ny n := by
    rcases hsafe with ⟨h1, h2, h3, h4⟩ | hrun
    · exact inTensor_of_interior hx' hy' ⟨h1, h2⟩ ⟨h3, h4⟩ hn ha
    · exact hrun p.1 hf' p.2.1 hx' p.2.2 hy' hpne n hn
  obtain ⟨hn1, hn2, hn3, hn4⟩ := hin
  obtain ⟨e1, e2, e3⟩ := accIdx_inj (Int.natCast_nonneg x) (Int.ofNat_lt.2 hx)
    (Int.natCast_nonneg y) (Int.ofNat_lt.2 hy) hn1 hn2 hn3 hn4 ha
  have hax := axis_of_mem_neighbours hn
  have hadj : axisNeighbour x y p.2.1 p.2.2 := by
    unfold axisNeighbour
    omega
  have hz := hnb p.2.1 hx' p.2.2 hy' hadj
  have hfe : p.1 = f := by omega
  rw [← hfe] at hz
  exact hpne hz

/-- Witness of C8 (amended): in the 4x4 tensor with the single non-zero element 1 at the
corner `(0, 0, 0)` and a reference that is non-zero only at `(0, 0, 0)` and `(0, 0, 1)`,
the pass fills the border pixel `(0, 0, 1)` and, from it, examines a neighbour outside
the tensor; the position `(0, 2, 2)`, off the border, is zero in the input, its four
neighbours are zero after the pass, and it is zero after the pass. -/
theorem get_padded_tensor_zero_stays_witness :
    get_padded_tensor 1 4 4 (ofList [1, 0, 0, 0, 0, 0, 0, 0, 0, 0, 0, 0, 0, 0, 0, 0])
      (ofList [7, 5, 0, 0, 0, 0, 0, 0, 0, 0, 0, 0, 0, 0, 0, 0])
      (accIdx 4 4 (0 : Nat) (2 : Nat) (2 : Nat)) = 0 :=
  get_padded_tensor_zero_stays 1 4 4 (ofList [1, 0, 0, 0, 0, 0, 0, 0, 0, 0, 0, 0, 0, 0, 0, 0])
    (ofList [7, 5, 0, 0, 0, 0, 0, 0, 0, 0, 0, 0, 0, 0, 0, 0]) 0 2 2 (by decide) (by decide)
    (Or.inl (by decide)) (by decide) (by decide)

/-- C9: border fill completeness.  For every tensor and reference, every position that is
zero in the input and has an in-range axis-aligned neighbour (same channel) that is
non-zero in the input holds the reference value at that position after
`get_padded_tensor`; this holds for every height and width, in particular for height and
width at least 2. -/
theorem get_padded_tensor_complete {α : Type} [Zero α] [DecidableEq α] (nf nx ny : Nat)
    (t ref : Mem α) (f x y x' y' : Nat) (hf : f < nf) (hx : x < nx) (hy : y < ny)
    (hx' : x' < nx) (hy' : y' < ny) (hadj : axisNeighbour x y x' y')
    (h0 : t (accIdx nx ny f x y) = 0) (hne : t (accIdx nx ny f x' y') ≠ 0) :
    get_padded_tensor nf nx ny t ref (accIdx nx ny f x y) = ref (accIdx nx ny f x y) := by
  have hq : (f, x', y') ∈ padOrder nf nx ny := mem_padOrder.2 ⟨hf, hx', hy'⟩
  obtain ⟨l1, l2, hl⟩ := List.append_of_mem hq
  unfold get_padded_tensor
  rw [hl, padPass_append, padPass_cons]
  apply padPass_done
  have hF := padPass_fills nx ny ref l1 t
  have hu : padPass nx ny ref l1 t (accIdx nx ny f x' y') ≠ 0 := by
    rcases hF (accIdx nx ny f x' y') with h | ⟨h, _⟩
    · rw [h]; exact hne
    · exact absurd h hne
  unfold padPixel
  rw [if_pos hu]
  exact foldl_padNeighbour_mem nx ny ref f t _ _ ((x : Int), (y : Int))
    (mem_neighbours_of_axisNeighbour hx hy hx' hy' hadj) hF h0

/-- Witness of C9: in the 3x3 tensor with the single non-zero element 1 at `(0, 1, 1)` and
the reference `1, 2, ..., 9`, the position `(0, 0, 1)` above it holds the reference value
after the pass. -/
theorem get_padded_tensor_complete_witness :
    get_padded_tensor 1 3 3 (ofList [0, 0, 0, 0, 1, 0, 0, 0, 0])
        (ofList [1, 2, 3, 4, 5, 6, 7, 8, 9]) (accIdx 3 3 (0 : Nat) (0 : Nat) (1 : Nat)) =
      ofList [1, 2, 3, 4, 5, 6, 7, 8, 9] (accIdx 3 3 (0 : Nat) (0 : Nat) (1 : Nat)) :=
  get_padded_tensor_complete 1 3 3 (ofList [0, 0, 0, 0, 1, 0, 0, 0, 0])
    (ofList [1, 2, 3, 4, 5, 6, 7, 8, 9]) 0 0 1 1 1 (by decide) (by decide) (by decide)
    (by decide) (by decide) (by decide) (by decide) (by decide)

/-- C10 (failing input): for the non-zero pixel `(0, 0, 1)` on the upper edge of a tensor
of sizes `(1, 3, 3)` the pass takes the final `else` branch and examines four neighbours,
among them `(0, -1, 1)`, whose row index is out of range and whose element offset is `-2`;
with the reference non-zero there, the pass writes to offset `-2`, before the start of the
tensor. -/
theorem get_padded_tensor_edge_out_of_range :
    neighbours 3 3 0 1 = [(-1, 1), (1, 1), (0, 0), (0, 2)] ∧
    accIdx 3 3 0 (-1) 1 = -2 ∧
    ofList [0, 1, 0, 0, 0, 0, 0, 0, 0] (-2) = 0 ∧
    get_padded_tensor 1 3 3 (ofList [0, 1, 0, 0, 0, 0, 0, 0, 0]) (fun _ => 5) (-2) = 5 := by
  decide

/-! ## The border fill in an arbitrary order: claim C11 -/

/-- Completeness for any visiting sequence that contains the non-zero neighbour: a
position that is zero in the input and has an in-range axis-aligned neighbour which is
non-zero in the input and is visited holds the reference value afterwards. -/
theorem padPass_complete {α : Type} [Zero α] [DecidableEq α] (nx ny : Nat) (ref : Mem α)
    (order : List (Nat × Nat × Nat)) (t : Mem α) (f x y x' y' : Nat) (hx : x < nx)
    (hy : y < ny) (hx' : x' < nx) (hy' : y' < ny) (hq : (f, x', y') ∈ order)
    (hadj : axisNeighbour x y x' y') (h0 : t (accIdx nx ny f x y) = 0)
    (hne : t (accIdx nx ny f x' y') ≠ 0) :
    padPass nx ny ref order t (accIdx nx ny f x y) = ref (accIdx nx ny f x y) := by
  obtain ⟨l1, l2, hl⟩ := List.append_of_mem hq
  rw [hl, padPass_append, padPass_cons]
  apply padPass_done
  have hF := padPass_fills nx ny ref l1 t
  have hu : padPass nx ny ref l1 t (accIdx nx ny f x' y') ≠ 0 := by
    rcases hF (accIdx nx ny f x' y') with h | ⟨h, _⟩
    · rw [h]; exact hne
    · exact absurd h hne
  unfold padPixel
  rw [if_pos hu]
  exact foldl_padNeighbour_mem nx ny ref f t _ _ ((x : Int), (y : Int))
    (mem_neighbours_of_axisNeighbour hx hy hx' hy' hadj) hF h0

/-- C11 (counterexample): on the 2x2 tensor `[[0, 0], [0, 1]]` with a reference that is 5
everywhere, visiting the four pixels in the reverse of the order of the source gives 5 at
`(0, 0, 0)`, while the order of the source leaves 0 there: the reverse order first fills
`(0, 1, 0)` from `(0, 1, 1)` and then, visiting the freshly filled `(0, 1, 0)`, fills
`(0, 0, 0)`. -/
theorem get_padded_tensor_order_dependent :
    (padOrder 1 2 2).reverse.Perm (padOrder 1 2 2) ∧
    padPass 2 2 (fun _ => 5) (padOrder 1 2 2).reverse (ofList [0, 0, 0, 1])
      (accIdx 2 2 0 0 0) = 5 ∧
    get_padded_tensor 1 2 2 (ofList [0, 0, 0, 1]) (fun _ => 5) (accIdx 2 2 0 0 0) = 0 :=
  ⟨List.reverse_perm _, by decide, by decide⟩

/-- C11 (amended): what does not depend on the visiting order.  For every permutation of
the sequence of pixel positions, the pass in that order and the pass in the order of the
source agree on every element that is non-zero in the input (it is unchanged) and on
every position that is zero in the input and has an in-range axis-aligned neighbour
(same channel) non-zero in the input (it holds the reference value); any other element
on which they differ was zero in the input and is left zero by one order and set to the
reference value at the same position by the other. -/
theorem get_padded_tensor_any_order {α : Type} [Zero α] [DecidableEq α] (nf nx ny : Nat)
    (t ref : Mem α) (order : List (Nat × Nat × Nat))
    (hperm : order.Perm (padOrder nf nx ny)) :
    (∀ a, t a ≠ 0 → padPass nx ny ref order t a = get_padded_tensor nf nx ny t ref a) ∧
    (∀ f x y x' y' : Nat, f < nf → x < nx → y < ny → x' < nx → y' < ny →
      axisNeighbour x y x' y' → t (accIdx nx ny f x y) = 0 → t (accIdx nx ny f x' y') ≠ 0 →
      padPass nx ny ref order t (accIdx nx ny f x y) =
        get_padded_tensor nf nx ny t ref (accIdx nx ny f x y)) ∧
    (∀ a, padPass nx ny ref order t a = get_padded_tensor nf nx ny t ref a ∨
      (t a = 0 ∧
        ((padPass nx ny ref order t a = 0 ∧ get_padded_tensor nf nx ny t ref a = ref a) ∨
         (padPass nx ny ref order t a = ref a ∧ get_padded_tensor nf nx ny t ref a = 0)))) := by
  have h1 := padPass_fills nx ny ref order t
  have h2 := padPass_fills nx ny ref (padOrder nf nx ny) t
  refine ⟨?_, ?_, ?_⟩
  · intro a ha
    unfold get_padded_tensor
    rcases h1 a with e1 | ⟨e1, _⟩
    · rcases h2 a with e2 | ⟨e2, _⟩
      · rw [e1, e2]
      · exact absurd e2 ha
    · exact absurd e1 ha
  · intro f x y x' y' hf hx hy hx' hy' hadj h0 hne
    have hq : (f, x', y') ∈ padOrder nf nx ny := mem_padOrder.2 ⟨hf, hx', hy'⟩
    unfold get_padded_tensor
    rw [padPass_complete nx ny ref order t f x y x' y' hx hy hx' hy' (hperm.mem_iff.2 hq)
        hadj h0 hne,
      padPass_complete nx ny ref (padOrder nf nx ny) t f x y x' y' hx hy hx' hy' hq
        hadj h0 hne]
  · intro a
    unfold get_padded_tensor
    rcases h1 a with e1 | ⟨z1, e1⟩
    · rcases h2 a with e2 | ⟨z2, e2⟩
      · exact Or.inl (e1.trans e2.symm)
      · exact Or.inr ⟨z2, Or.inl ⟨e1.trans z2, e2⟩⟩
    · rcases h2 a with e2 | ⟨_, e2⟩
      · exact Or.inr ⟨z1, Or.inr ⟨e1, e2.trans z1⟩⟩
      · exact Or.inl (e1.trans e2.symm)

/-- Witness of C11 (amended): on the 2x2 tensor `[[0, 0], [0, 1]]` with reference 5
everywhere, the reverse order and the order of the source agree on the non-zero element
at `(0, 1, 1)` and on its neighbour `(0, 0, 1)`. -/
theorem get_padded_tensor_any_order_witness :
    padPass 2 2 (fun _ => 5) (padOrder 1 2 2).reverse (ofList [0, 0, 0, 1]) 3 =
      get_padded_tensor 1 2 2 (ofList [0, 0, 0, 1]) (fun _ => 5) 3 ∧
    padPass 2 2 (fun _ => 5) (padOrder 1 2 2).reverse (ofList [0, 0, 0, 1])
        (accIdx 2 2 (0 : Nat) (0 : Nat) (1 : Nat)) =
      get_padded_tensor 1 2 2 (ofList [0, 0, 0, 1]) (fun _ => 5)
        (accIdx 2 2 (0 : Nat) (0 : Nat) (1 : Nat)) :=
  ⟨(get_padded_tensor_any_order 1 2 2 (ofList [0, 0, 0, 1]) (fun _ => 5)
      (padOrder 1 2 2).reverse (List.reverse_perm _)).1 3 (by decide),
   (get_padded_tensor_any_order 1 2 2 (ofList [0, 0, 0, 1]) (fun _ => 5)
      (padOrder 1 2 2).reverse (List.reverse_perm _)).2.1 0 0 1 1 1 (by decide) (by decide)
      (by decide) (by decide) (by decide) (by decide) (by decide) (by decide)⟩

/-! ## The batch driver: claim C12 -/

/-- The loop body never produces a shape or dimension error. -/
theorem DenseSplitForwardCPU_sample_error {α : Type} [Zero α] [DecidableEq α]
    (DenseToQuad : Nat → Nat → Nat → Mem α → quadtree α → Option (quadtree α))
    (tree_data_idx : (Nat → Bool) → Nat → Nat → Nat)
    (pool : Mem α → Nat → Nat → Nat → Nat → Nat → α) (f h w : Nat) (input : Mem α)
    (structures : Nat → quadtree α) (r : ForwardResult α) (t : Nat)
    (hr : ∀ e, r.error = some e → e.isShapeError = false) :
    ∀ e, (DenseSplitForwardCPU_sample DenseToQuad tree_data_idx pool f h w input structures
      r t).error = some e → e.isShapeError = false := by
  intro e he
  unfold DenseSplitForwardCPU_sample at he
  simp only at he
  split at he
  · exact hr e he
  · split at he
    · simp only [Option.some.injEq] at he
      rw [← he]; rfl
    · split at he
      · simp only [Option.some.injEq] at he
        rw [← he]; rfl
      · cases he

theorem DenseSplitForwardCPU_loop_error {α : Type} [Zero α] [DecidableEq α]
    (DenseToQuad : Nat → Nat → Nat → Mem α → quadtree α → Option (quadtree α))
    (tree_data_idx : (Nat → Bool) → Nat → Nat → Nat)
    (pool : Mem α → Nat → Nat → Nat → Nat → Nat → α) (f h w : Nat) (input : Mem α)
    (structures : Nat → quadtree α) (ts : List Nat) (r : ForwardResult α)
    (hr : ∀ e, r.error = some e → e.isShapeError = false) :
    ∀ e, (ts.foldl (DenseSplitForwardCPU_sample DenseToQuad tree_data_idx pool f h w input
      structures) r).error = some e → e.isShapeError = false := by
  induction ts generalizing r with
  | nil => exact hr
  | cons t ts ih =>
    rw [List.foldl_cons]
    exact ih _ (DenseSplitForwardCPU_sample_error DenseToQuad tree_data_idx pool f h w input
      structures r t hr)

/-- C12: `DenseSplitForwardCPU` ends with a shape or dimension error if and only if the
input tensor is not of rank 4 or the sizes of one of the four output tensors differ from
the sizes of the input; and when it does, the elements of the four output tensors are
those it was called with. -/
theorem DenseSplitForwardCPU_shape_error {α : Type} [Zero α] [DecidableEq α]
    (DenseToQuad : Nat → Nat → Nat → Mem α → quadtree α → Option (quadtree α))
    (tree_data_idx : (Nat → Bool) → Nat → Nat → Nat)
    (pool : Mem α → Nat → Nat → Nat → Nat → Nat → α)
    (input out_l1 out_l2 out_l3 out_l4 : Tensor α) (structures : Nat → quadtree α) :
    ((∃ e, (DenseSplitForwardCPU DenseToQuad tree_data_idx pool input out_l1 out_l2 out_l3
        out_l4 structures).error = some e ∧ e.isShapeError = true) ↔
      (input.sizes.length ≠ 4 ∨ out_l1.sizes ≠ input.sizes ∨ out_l2.sizes ≠ input.sizes ∨
        out_l3.sizes ≠ input.sizes ∨ out_l4.sizes ≠ input.sizes)) ∧
    ((∃ e, (DenseSplitForwardCPU DenseToQuad tree_data_idx pool input out_l1 out_l2 out_l3
        out_l4 structures).error = some e ∧ e.isShapeError = true) →
      (DenseSplitForwardCPU DenseToQuad tree_data_idx pool input out_l1 out_l2 out_l3
        out_l4 structures).out_l1 = out_l1.elems ∧
      (DenseSplitForwardCPU DenseToQuad tree_data_idx pool input out_l1 out_l2 out_l3
        out_l4 structures).out_l2 = out_l2.elems ∧
      (DenseSplitForwardCPU DenseToQuad tree_data_idx pool input out_l1 out_l2 out_l3
        out_l4 structures).out_l3 = out_l3.elems ∧
      (DenseSplitForwardCPU DenseToQuad tree_data_idx pool input out_l1 out_l2 out_l3
        out_l4 structures).out_l4 = out_l4.elems) := by
  have hloop := fun T f h w => DenseSplitForwardCPU_loop_error DenseToQuad tree_data_idx pool
    f h w input.elems structures (List.range T)
    ⟨none, out_l1.elems, out_l2.elems, out_l3.elems, out_l4.elems⟩
    (fun e he => by cases he)
  unfold DenseSplitForwardCPU
  simp only
  by_cases h0 : input.sizes.length ≠ 4
  · rw [if_pos h0]
    exact ⟨⟨fun _ => Or.inl h0, fun _ => ⟨_, rfl, rfl⟩⟩, fun _ => ⟨rfl, rfl, rfl, rfl⟩⟩
  rw [if_neg h0]
  by_cases h1 : input.sizes ≠ out_l1.sizes
  · rw [if_pos h1]
    exact ⟨⟨fun _ => Or.inr (Or.inl (Ne.symm h1)), fun _ => ⟨_, rfl, rfl⟩⟩,
      fun _ => ⟨rfl, rfl, rfl, rfl⟩⟩
  rw [if_neg h1]
  by_cases h2 : input.sizes ≠ out_l2.sizes
  · rw [if_pos h2]
    exact ⟨⟨fun _ => Or.inr (Or.inr (Or.inl (Ne.symm h2))), fun _ => ⟨_, rfl, rfl⟩⟩,
      fun _ => ⟨rfl, rfl, rfl, rfl⟩⟩
  rw [if_neg h2]
  by_cases h3 : input.sizes ≠ out_l3.sizes
  · rw [if_pos h3]
    exact ⟨⟨fun _ => Or.inr (Or.inr (Or.inr (Or.inl (Ne.symm h3)))), fun _ => ⟨_, rfl, rfl⟩⟩,
      fun _ => ⟨rfl, rfl, rfl, rfl⟩⟩
  rw [if_neg h3]
  by_cases h4 : input.sizes ≠ out_l4.sizes
  · rw [if_pos h4]
    exact ⟨⟨fun _ => Or.inr (Or.inr (Or.inr (Or.inr (Ne.symm h4)))), fun _ => ⟨_, rfl, rfl⟩⟩,
      fun _ => ⟨rfl, rfl, rfl, rfl⟩⟩
  rw [if_neg h4]
  have hno : ¬ ∃ e, (List.foldl (DenseSplitForwardCPU_sample DenseToQuad tree_data_idx pool
      (input.sizes.getD 1 0) (input.sizes.getD 2 0) (input.sizes.getD 3 0) input.elems
      structures) ⟨none, out_l1.elems, out_l2.elems, out_l3.elems, out_l4.elems⟩
      (List.range (input.sizes.getD 0 0))).error = some e ∧ e.isShapeError = true := by
    rintro ⟨e, he, hs⟩
    have := hloop _ _ _ _ e he
    rw [this] at hs
    cases hs
  refine ⟨⟨fun h => absurd h hno, ?_⟩, fun h => absurd h hno⟩
  rintro (h | h | h | h | h)
  · exact absurd h h0
  · exact absurd (Ne.symm h) h1
  · exact absurd (Ne.symm h) h2
  · exact absurd (Ne.symm h) h3
  · exact absurd (Ne.symm h) h4

/-! ## The decoder: claims C14, C16 and C17 -/

/-- C14 (failing input): a grid of 8 rows and 1 column of cells whose cell 0 is subdivided
down to depth 3, decoded into one-channel zero tensors with 1 row and 8 columns (the
`assert` passes, 1/8 = 1/8).  Whatever the leaf-offset helper and the pooling reduction
are, the tier-3 tensor is still zero at row 0, column 0 after the run, where the depth-3
leaf covering the unit square `[7, 8) x [7, 8)` of cell 0 belongs.  With the sample
leaf-offset helper, the run performs stores on tier 0 only, and the last call made for
cell 0, the one for the child `(hl3, wl3) = (1, 1)` of the depth-2 node with centre
`(7, 7)`, is a call of `get_data_from_tensor` with the bounds `7 ± 0.5` (13 and 15 in half
units) of the centre of the parent. -/
theorem splitQuadToDense_depth3_not_written
    (tree_data_idx : (Nat → Bool) → Nat → Nat → Nat)
    (pool : Mem Int → Nat → Nat → Nat → Nat → Nat → Int) :
    (splitQuadToDense tree_data_idx pool 1 1 8 deepColumnGrid
      (fun _ => 0) (fun _ => 0) (fun _ => 0) (fun _ => 0)).map
        (fun s => s.out_l4_dst (flatIdx 1 8 0 0 0)) = some 0 ∧
    (∀ st ∈ splitQuadToDense_stores sampleOffset 1 deepColumnGrid, st.tier = 0) ∧
    (cell_calls sampleOffset deepColumnGrid 0).getLast? =
      some (Call.get (sampleOffset (deepColumnGrid.trees 0) 84 1) 13 15 13 15) :=
  ⟨rfl, by decide, by decide⟩

/-- C16 (failing input): a grid of 2x2 root-leaf cells decoded into one-channel tensors
with 2 rows and 2 columns.  The `assert` passes (2/2 = 2/2), and the root leaf of cell 0
is stored over rows 0..7 and columns 0..7: the store at row 7, column 7 has flat index
21, beyond the 4 elements of the tensor, and after the run the element at flat index 21
of the tier-0 buffer has been overwritten (with 3, the value of cell 2). -/
theorem splitQuadToDense_store_out_of_range
    (tree_data_idx : (Nat → Bool) → Nat → Nat → Nat)
    (pool : Mem Int → Nat → Nat → Nat → Nat → Nat → Int) :
    splitQuadToDense_check 1 2 2 squareGrid = true ∧
    ({ tier := 0, f := 0, h := 7, w := 7, src := 0 } : Store) ∈
      splitQuadToDense_stores tree_data_idx 2 squareGrid ∧
    flatIdx 2 2 0 7 7 = 21 ∧ ¬ ((21 : Int) < 1 * 2 * 2) ∧
    (splitQuadToDense tree_data_idx pool 1 2 2 squareGrid
      (fun _ => 0) (fun _ => 0) (fun _ => 0) (fun _ => 0)).map
        (fun s => s.out_l1_dst 21) = some 3 :=
  ⟨rfl, of_decide_eq_true rfl, rfl, by decide, rfl⟩

/-- C17 (failing input): with 2x2 cells and tensors 16x16 both scale factors are 8
(`tensor_h = 8 * grid_height`, `tensor_w = 8 * grid_width`) and the `assert` fails, since
it compares `16 / 2` with `2 / 16`; with 8x1 cells and tensors with 1 row and 8 columns
the scale factors are 1/8 and 8, and the `assert` passes, since it compares `1 / 8` with
`1 / 8`. -/
theorem splitQuadToDense_check_inverted :
    splitQuadToDense_check 1 16 16 concreteScenario = false ∧
    16 = 8 * concreteScenario.grid_height ∧ 16 = 8 * concreteScenario.grid_width ∧
    splitQuadToDense_check 1 1 8 columnGrid = true ∧
    1 * columnGrid.grid_width ≠ 8 * columnGrid.grid_height := by
  decide

/-! ## `GET_BLOCKS`: claim C19 -/

/-- A 32-bit computation whose exact result is in range yields that result. -/
theorem wrap32_sub_one {N T : Int} (h0 : 0 ≤ N + T - 1) (h1 : N + T - 1 ≤ 2147483647) :
    wrap32 (wrap32 (N + T) - 1) = N + T - 1 := by
  unfold wrap32
  omega

/-- C19 (counterexample): for `N = 2147483647` the sum `N + 1024 - 1` wraps to
`-2147482626` in 32-bit arithmetic and `GET_BLOCKS` returns `-2097151`, which is
negative, whereas the least `b >= 0` with `b * 1024 >= N` is `2097152`. -/
theorem GET_BLOCKS_overflow :
    wrap32 (wrap32 (2147483647 + CUDA_NUM_THREADS) - 1) = -2147482626 ∧
    GET_BLOCKS 2147483647 = -2097151 ∧
    ¬ (2147483647 ≤ GET_BLOCKS 2147483647 * 1024) := by
  decide

/-- C19 (amended): for `N >= 0` and `T > 0` with `N + T - 1` at most `2^31 - 1`,
`GET_BLOCKS_T(N, T)` is the least `b >= 0` with `b * T >= N`; and `GET_BLOCKS(N)` is
`GET_BLOCKS_T(N, 1024)`, hence the least `b >= 0` with `b * 1024 >= N` for
`0 <= N <= 2^31 - 1024`. -/
theorem GET_BLOCKS_T_ceil (N T : Int) (hN : 0 ≤ N) (hT : 0 < T)
    (hmax : N + T - 1 ≤ 2147483647) :
    (0 ≤ GET_BLOCKS_T N T ∧ N ≤ GET_BLOCKS_T N T * T ∧
      ∀ b : Int, 0 ≤ b → N ≤ b * T → GET_BLOCKS_T N T ≤ b) ∧
    (T = CUDA_NUM_THREADS → GET_BLOCKS N = GET_BLOCKS_T N T) := by
  have hx0 : 0 ≤ N + T - 1 := by omega
  have hval : GET_BLOCKS_T N T = (N + T - 1) / T := by
    unfold GET_BLOCKS_T
    rw [wrap32_sub_one hx0 hmax, Int.tdiv_eq_ediv hx0 hT.le]
  have hdm := Int.ediv_add_emod (N + T - 1) T
  have hm0 := Int.emod_nonneg (N + T - 1) hT.ne'
  have hm1 := Int.emod_lt_of_pos (N + T - 1) hT
  have hq0 : 0 ≤ (N + T - 1) / T := Int.ediv_nonneg hx0 hT.le
  refine ⟨⟨by rw [hval]; exact hq0, ?_, ?_⟩, ?_⟩
  · rw [hval]
    have : (N + T - 1) / T * T = T * ((N + T - 1) / T) := by ring
    omega
  · intro b hb hNb
    rw [hval]
    by_contra hlt
    have h1 : b + 1 ≤ (N + T - 1) / T := by omega
    have h2 : (b + 1) * T ≤ (N + T - 1) / T * T := Int.mul_le_mul_of_nonneg_right h1 hT.le
    have h3 : (b + 1) * T = b * T + T := by ring
    have h4 : (N + T - 1) / T * T = T * ((N + T - 1) / T) := by ring
    omega
  · intro hT'
    subst hT'
    rfl

/-- Witness of C19 (amended): `GET_BLOCKS_T(2049, 1024)` is 3, the least `b >= 0` with
`b * 1024 >= 2049`. -/
theorem GET_BLOCKS_T_ceil_witness :
    (0 ≤ GET_BLOCKS_T 2049 1024 ∧ (2049 : Int) ≤ GET_BLOCKS_T 2049 1024 * 1024 ∧
      ∀ b : Int, 0 ≤ b → 2049 ≤ b * 1024 → GET_BLOCKS_T 2049 1024 ≤ b) ∧
    ((1024 : Int) = CUDA_NUM_THREADS → GET_BLOCKS 2049 = GET_BLOCKS_T 2049 1024) :=
  GET_BLOCKS_T_ceil 2049 1024 (by decide) (by decide) (by decide)

/-! ## `save_data_to_tensor`: claim C18 -/

theorem loopRangeInt_cast (a b : Nat) :
    loopRangeInt (a : Int) (b : Int) = (loopRange a b).map (fun (i : Nat) => (i : Int)) := by
  unfold loopRangeInt loopRange
  have e : ((b : Int) - (a : Int)).toNat = b - a := by omega
  rw [e, List.map_map]
  apply List.map_congr_left
  intro i _
  simp

/-- The function of lines 152-174 in `float` arithmetic and its form with the exact scale
`tensor_h / grid_height` used for the decoder agree on every call whose four products
have the conversions `trunc(v * tensor_h / grid_height)`. -/
theorem save_data_to_tensor_float_exact {α : Type} (src_data : Nat → α) (dst_tensor : Mem α)
    (s : Frac) (tensor_h grid_height tensor_w feature_size h1 h2 w1 w2 : Nat)
    (e1 : float_mul_to_int ⟨h1, 1⟩ s = some ((scaled tensor_h grid_height h1 : Nat) : Int))
    (e2 : float_mul_to_int ⟨h2, 1⟩ s = some ((scaled tensor_h grid_height h2 : Nat) : Int))
    (e3 : float_mul_to_int ⟨w1, 1⟩ s = some ((scaled tensor_h grid_height w1 : Nat) : Int))
    (e4 : float_mul_to_int ⟨w2, 1⟩ s = some ((scaled tensor_h grid_height w2 : Nat) : Int)) :
    save_data_to_tensor_float src_data dst_tensor s tensor_h tensor_w feature_size
      ⟨h1, 1⟩ ⟨h2, 1⟩ ⟨w1, 1⟩ ⟨w2, 1⟩ =
    some (save_data_to_tensor src_data dst_tensor tensor_h grid_height tensor_w feature_size
      h1 h2 w1 w2) := by
  have hidx : save_data_to_tensor_float_idx feature_size
      ((scaled tensor_h grid_height h1 : Nat) : Int) ((scaled tensor_h grid_height h2 : Nat) : Int)
      ((scaled tensor_h grid_height w1 : Nat) : Int)
      ((scaled tensor_h grid_height w2 : Nat) : Int) =
      (save_data_to_tensor_idx tensor_h grid_height feature_size h1 h2 w1 w2).map
        (fun (p : Nat × Nat × Nat) => ((p.1 : Int), (p.2.1 : Int), p.2.2)) := by
    unfold save_data_to_tensor_float_idx save_data_to_tensor_idx
    simp only [loopRangeInt_cast, List.map_flatMap, List.flatMap_map, List.map_map]
    rfl
  unfold save_data_to_tensor_float save_data_to_tensor
  rw [e1, e2, e3, e4]
  simp only [Option.some_bind, Option.some.injEq]
  rw [hidx, List.foldl_map]
  congr 1

set_option maxRecDepth 100000 in
set_option maxHeartbeats 4000000 in
/-- On the geometries `(tensor_h, grid_height)` of the concrete inputs of the decoder
below, for every bound `v` up to 8 units per cell of the longer side of the grid, the
`float` computation of `int(v * scale_factor)` and the exact truncation agree. -/
theorem scaled_float_agrees :
    ∀ g ∈ [(16, 2, 17), (2, 16, 129), (3, 24, 193), (1, 8, 65), (2, 2, 17), (1, 2, 17),
        (16, 16, 129)],
      ∀ v ∈ List.range g.2.2,
        scaled_float g.1 g.2.1 v = some ((scaled g.1 g.2.1 v : Nat) : Int) := by
  decide

/-- The exact truncation and the `float` computation can differ when the quotient
`tensor_h / grid_height` is not a `float`: with 1 row for 41 cells `int(41 * s)` is 0, not
1, and with 3 rows for 19 cells `int(95 * s)` is 14, not 15. -/
theorem scaled_float_differs :
    scaled_float 1 41 41 = some 0 ∧ scaled 1 41 41 = 1 ∧
    scaled_float 3 19 95 = some 14 ∧ scaled 3 19 95 = 15 := by
  decide

/-! ## Footprints of the leaves of depth 0 to 2: claim C15 -/

theorem dfsOrder_perm : dfsOrder.Perm (List.range 85) := by decide

theorem leaf_rank_zero (tree : Nat → Bool) : leaf_rank tree 0 = 0 := rfl

/-- The offsets the calls of a cell pass are those of the visited nodes. -/
theorem map_addr_cell_calls {α : Type} (q : quadtree α) (g : Nat) :
    (cell_calls tree_data_idx q g).map Call.addr =
      (visited_leaves (q.trees g)).map
        (fun b => q.feature_size * q.prefix_leafs g +
          tree_data_idx (q.trees g) b q.feature_size) := by
  unfold cell_calls visited_leaves
  simp only [List.map_flatMap, apply_ite (List.map _), List.map_cons, List.map_nil, Call.addr,
    tree_data_idx, leaf_rank_zero, Nat.zero_mul, Nat.add_zero]

/-- The nodes of a subdivided node of depth 2 and its four children: the leaves among
them. -/
theorem is_leaf_sub (tree : Nat → Bool) (b1 b2 : Nat) (hb1 : 1 ≤ b1 ∧ b1 ≤ 4)
    (hb2 : 4 * b1 + 1 ≤ b2 ∧ b2 ≤ 4 * b1 + 4) (h0 : tree 0 = true) (h1 : tree b1 = true) :
    [b2, 4 * b2 + 1, 4 * b2 + 2, 4 * b2 + 3, 4 * b2 + 4].filter (is_leaf tree) =
      if tree b2 then [4 * b2 + 1, 4 * b2 + 2, 4 * b2 + 3, 4 * b2 + 4] else [b2] := by
  have e : (b2 - 1) / 4 = b1 := by omega
  have l2 : is_leaf tree b2 = !tree b2 := by
    unfold is_leaf node_exists
    rw [if_neg (by omega), if_neg (by omega), if_pos (by omega), e, h0, h1]
    simp
    omega
  have l3 : ∀ k, 1 ≤ k → k ≤ 4 → is_leaf tree (4 * b2 + k) = tree b2 := by
    intro k hk1 hk4
    unfold is_leaf node_exists
    have e2 : (4 * b2 + k - 1) / 4 = b2 := by omega
    rw [if_neg (by omega), if_neg (by omega), if_neg (by omega), if_pos (by omega), e2, e, h0, h1]
    simp
    omega
  simp only [List.filter_cons, List.filter_nil, l2, l3 1 (by omega) (by omega),
    l3 2 (by omega) (by omega), l3 3 (by omega) (by omega), l3 4 (by omega) (by omega)]
  cases tree b2 <;> simp

/-- The leaves among the nodes of one quadrant of a subdivided cell, in traversal order. -/
theorem filter_quad (tree : Nat → Bool) (b1 : Nat) (hb1 : 1 ≤ b1 ∧ b1 ≤ 4)
    (h0 : tree 0 = true) (l1 l2 l3 l4 v1 v2 v3 v4 : List Nat)
    (e1 : l1 = [4 * b1 + 1, 4 * (4 * b1 + 1) + 1, 4 * (4 * b1 + 1) + 2, 4 * (4 * b1 + 1) + 3,
      4 * (4 * b1 + 1) + 4])
    (e2 : l2 = [4 * b1 + 2, 4 * (4 * b1 + 2) + 1, 4 * (4 * b1 + 2) + 2, 4 * (4 * b1 + 2) + 3,
      4 * (4 * b1 + 2) + 4])
    (e3 : l3 = [4 * b1 + 3, 4 * (4 * b1 + 3) + 1, 4 * (4 * b1 + 3) + 2, 4 * (4 * b1 + 3) + 3,
      4 * (4 * b1 + 3) + 4])
    (e4 : l4 = [4 * b1 + 4, 4 * (4 * b1 + 4) + 1, 4 * (4 * b1 + 4) + 2, 4 * (4 * b1 + 4) + 3,
      4 * (4 * b1 + 4) + 4])
    (f1 : v1 = if tree (4 * b1 + 1) = true then [4 * (4 * b1 + 1) + 1, 4 * (4 * b1 + 1) + 2,
      4 * (4 * b1 + 1) + 3, 4 * (4 * b1 + 1) + 4] else [4 * b1 + 1])
    (f2 : v2 = if tree (4 * b1 + 2) = true then [4 * (4 * b1 + 2) + 1, 4 * (4 * b1 + 2) + 2,
      4 * (4 * b1 + 2) + 3, 4 * (4 * b1 + 2) + 4] else [4 * b1 + 2])
    (f3 : v3 = if tree (4 * b1 + 3) = true then [4 * (4 * b1 + 3) + 1, 4 * (4 * b1 + 3) + 2,
      4 * (4 * b1 + 3) + 3, 4 * (4 * b1 + 3) + 4] else [4 * b1 + 3])
    (f4 : v4 = if tree (4 * b1 + 4) = true then [4 * (4 * b1 + 4) + 1, 4 * (4 * b1 + 4) + 2,
      4 * (4 * b1 + 4) + 3, 4 * (4 * b1 + 4) + 4] else [4 * b1 + 4]) :
    (b1 :: (l1 ++ (l2 ++ (l3 ++ l4)))).filter (is_leaf tree) =
      if tree b1 = true then v1 ++ (v2 ++ (v3 ++ v4)) else [b1] := by
  have lb : is_leaf tree b1 = !tree b1 := by
    unfold is_leaf node_exists
    rw [if_neg (by omega), if_pos (by omega), h0]
    simp
    omega
  rw [List.filter_cons, lb]
  cases h1 : tree b1
  · have hn : ∀ i, 5 ≤ i → (i - 1) / 4 = b1 ∨ ((i - 1) / 4 - 1) / 4 = b1 →
        is_leaf tree i = false := by
      intro i hi hp
      unfold is_leaf node_exists
      rw [if_neg (by omega), if_neg (by omega)]
      by_cases h20 : i ≤ 20
      · rw [if_pos h20]
        have : (i - 1) / 4 = b1 := by omega
        rw [this, h1]
        simp
      · rw [if_neg h20]
        by_cases h84 : i ≤ 84
        · rw [if_pos h84]
          have : ((i - 1) / 4 - 1) / 4 = b1 := by omega
          rw [this, h1]
          simp
        · rw [if_neg h84]
          simp
    have hnil : ∀ l : List Nat,
        (∀ i ∈ l, 5 ≤ i ∧ ((i - 1) / 4 = b1 ∨ ((i - 1) / 4 - 1) / 4 = b1)) →
        l.filter (is_leaf tree) = [] := by
      intro l hl
      rw [List.filter_eq_nil_iff]
      intro i hi
      rw [hn i (hl i hi).1 (hl i hi).2]
      simp
    rw [List.filter_append, List.filter_append, List.filter_append]
    rw [hnil l1, hnil l2, hnil l3, hnil l4]
    · simp
    all_goals
      intro i hi
      subst_vars
      simp only [List.mem_cons, List.mem_singleton, List.mem_nil_iff, or_false] at hi
      omega
  · rw [List.filter_append, List.filter_append, List.filter_append, e1, e2, e3, e4,
      is_leaf_sub tree b1 (4 * b1 + 1) hb1 (by omega) h0 h1,
      is_leaf_sub tree b1 (4 * b1 + 2) hb1 (by omega) h0 h1,
      is_leaf_sub tree b1 (4 * b1 + 3) hb1 (by omega) h0 h1,
      is_leaf_sub tree b1 (4 * b1 + 4) hb1 (by omega) h0 h1, f1, f2, f3, f4]
    simp

/-- The nodes the traversal makes a call for are the leaves, in traversal order. -/
theorem filter_dfsOrder (tree : Nat → Bool) :
    dfsOrder.filter (is_leaf tree) = visited_leaves tree := by
  unfold visited_leaves dfsOrder tree_isset_bit child_idx
  simp only [List.flatMap_cons, List.flatMap_nil, List.append_nil, Nat.reduceMul, Nat.reduceAdd,
    Nat.zero_mul, Nat.add_zero, Nat.one_mul, List.cons_append, List.nil_append,
    List.singleton_append, List.append_assoc]
  by_cases h0 : tree 0 = true
  · rw [if_pos h0]
    have l0 : is_leaf tree 0 = false := by simp [is_leaf, node_exists, h0]
    have q1 := filter_quad tree 1 (by omega) h0 [5, 21, 22, 23, 24] [6, 25, 26, 27, 28]
      [7, 29, 30, 31, 32] [8, 33, 34, 35, 36]
      (if tree 5 = true then [21, 22, 23, 24] else [5])
      (if tree 6 = true then [25, 26, 27, 28] else [6])
      (if tree 7 = true then [29, 30, 31, 32] else [7])
      (if tree 8 = true then [33, 34, 35, 36] else [8]) rfl rfl rfl rfl rfl rfl rfl rfl
    have q2 := filter_quad tree 2 (by omega) h0 [9, 37, 38, 39, 40] [10, 41, 42, 43, 44]
      [11, 45, 46, 47, 48] [12, 49, 50, 51, 52]
      (if tree 9 = true then [37, 38, 39, 40] else [9])
      (if tree 10 = true then [41, 42, 43, 44] else [10])
      (if tree 11 = true then [45, 46, 47, 48] else [11])
      (if tree 12 = true then [49, 50, 51, 52] else [12]) rfl rfl rfl rfl rfl rfl rfl rfl
    have q3 := filter_quad tree 3 (by omega) h0 [13, 53, 54, 55, 56] [14, 57, 58, 59, 60]
      [15, 61, 62, 63, 64] [16, 65, 66, 67, 68]
      (if tree 13 = true then [53, 54, 55, 56] else [13])
      (if tree 14 = true then [57, 58, 59, 60] else [14])
      (if tree 15 = true then [61, 62, 63, 64] else [15])
      (if tree 16 = true then [65, 66, 67, 68] else [16]) rfl rfl rfl rfl rfl rfl rfl rfl
    have q4 := filter_quad tree 4 (by omega) h0 [17, 69, 70, 71, 72] [18, 73, 74, 75, 76]
      [19, 77, 78, 79, 80] [20, 81, 82, 83, 84]
      (if tree 17 = true then [69, 70, 71, 72] else [17])
      (if tree 18 = true then [73, 74, 75, 76] else [18])
      (if tree 19 = true then [77, 78, 79, 80] else [19])
      (if tree 20 = true then [81, 82, 83, 84] else [20]) rfl rfl rfl rfl rfl rfl rfl rfl
    show List.filter (is_leaf tree)
        (0 :: ((1 :: ([5, 21, 22, 23, 24] ++ ([6, 25, 26, 27, 28] ++ ([7, 29, 30, 31, 32] ++ [8, 33, 34, 35, 36])))) ++
          ((2 :: ([9, 37, 38, 39, 40] ++ ([10, 41, 42, 43, 44] ++ ([11, 45, 46, 47, 48] ++ [12, 49, 50, 51, 52])))) ++
          ((3 :: ([13, 53, 54, 55, 56] ++ ([14, 57, 58, 59, 60] ++ ([15, 61, 62, 63, 64] ++ [16, 65, 66, 67, 68])))) ++
          (4 :: ([17, 69, 70, 71, 72] ++ ([18, 73, 74, 75, 76] ++ ([19, 77, 78, 79, 80] ++ [20, 81, 82, 83, 84])))))))) =
        _
    rw [List.filter_cons, l0, List.filter_append, List.filter_append, List.filter_append,
      q1, q2, q3, q4]
    simp only [Bool.false_eq_true, if_false]
  · rw [if_neg h0]
    have h0' : tree 0 = false := by simpa using h0
    simp [List.filter, is_leaf, node_exists, h0']

/-- The ranks of the elements of an initial segment that satisfy `p`, counted among the
elements that satisfy `p`, are `0, 1, 2, ...` in order. -/
theorem map_rank_filter_range (p : Nat → Bool) (N : Nat) :
    ((List.range N).filter p).map (fun j => ((List.range j).filter p).length) =
      List.range ((List.range N).filter p).length := by
  induction N with
  | zero => rfl
  | succ N ih =>
    rw [List.range_succ, List.filter_append, List.map_append, ih, List.length_append]
    cases h : p N
    · simp [List.filter_cons, h]
    · simp [List.filter_cons, h, List.range_succ]

/-- Vectors of different ranks do not overlap. -/
theorem rank_vectors_disjoint (base fs k k' f f' : Nat) (hk : k ≠ k') (hf : f < fs)
    (hf' : f' < fs) : base + k * fs + f ≠ base + k' * fs + f' := by
  rcases Nat.lt_or_gt_of_ne hk with h | h
  · have := Nat.mul_le_mul_right fs (Nat.succ_le_of_lt h)
    rw [Nat.succ_mul] at this
    omega
  · have := Nat.mul_le_mul_right fs (Nat.succ_le_of_lt h)
    rw [Nat.succ_mul] at this
    omega

/-- C13: leaf addressing within a cell, with `tree_data_idx` modelled from the spec as the
breadth-first leaf rank scaled by `feature_size`.  For every cell `g` with tree `T` (the
"leaf has no set descendant" invariant is not needed: a node counts as existing only when
all its ancestors are internal) and `n = n_leaves T` leaves:
(1) the call made for the visited node `b` passes the offset
`feature_size * prefix_leafs[g] + leaf_rank T b * feature_size`, the root leaf having
rank 0;
(2) the visited nodes are exactly the leaves of the tree, each visited once;
(3) their ranks are pairwise distinct and are exactly `0, 1, ..., n - 1`, so the offsets
inside the cell are exactly `0, feature_size, ..., (n - 1) * feature_size`;
(4) the vectors of two different calls do not overlap;
(5) when `prefix_leafs[g + 1] = prefix_leafs[g] + n`, every element `addr + f`,
`f < feature_size`, of a vector lies in
`[feature_size * prefix_leafs[g], feature_size * prefix_leafs[g + 1])`. -/
theorem splitQuadToDense_leaf_addressing {α : Type} (q : quadtree α) (g : Nat) :
    (cell_calls tree_data_idx q g).map Call.addr =
      (visited_leaves (q.trees g)).map
        (fun b => q.feature_size * q.prefix_leafs g +
          leaf_rank (q.trees g) b * q.feature_size) ∧
    (visited_leaves (q.trees g)).Perm ((List.range 85).filter (is_leaf (q.trees g))) ∧
    (((visited_leaves (q.trees g)).map (leaf_rank (q.trees g))).Nodup ∧
      ((visited_leaves (q.trees g)).map (leaf_rank (q.trees g))).Perm
        (List.range (n_leaves (q.trees g)))) ∧
    ((cell_calls tree_data_idx q g).map Call.addr).Pairwise
      (fun a b => ∀ f f', f < q.feature_size → f' < q.feature_size → a + f ≠ b + f') ∧
    (q.prefix_leafs (g + 1) = q.prefix_leafs g + n_leaves (q.trees g) →
      ∀ c ∈ cell_calls tree_data_idx q g, ∀ f, f < q.feature_size →
        q.feature_size * q.prefix_leafs g ≤ c.addr + f ∧
        c.addr + f < q.feature_size * q.prefix_leafs (g + 1)) := by
  have hvis : (visited_leaves (q.trees g)).Perm ((List.range 85).filter (is_leaf (q.trees g))) := by
    rw [← filter_dfsOrder]
    exact dfsOrder_perm.filter _
  have hrank : ((visited_leaves (q.trees g)).map (leaf_rank (q.trees g))).Perm
      (List.range (n_leaves (q.trees g))) := by
    have h := hvis.map (leaf_rank (q.trees g))
    unfold n_leaves
    rw [← map_rank_filter_range (is_leaf (q.trees g)) 85]
    exact h
  have hnodup : ((visited_leaves (q.trees g)).map (leaf_rank (q.trees g))).Nodup :=
    hrank.nodup_iff.2 (List.nodup_range _)
  have haddr := map_addr_cell_calls q g
  have haddr' : (cell_calls tree_data_idx q g).map Call.addr =
      ((visited_leaves (q.trees g)).map (leaf_rank (q.trees g))).map
        (fun k => q.feature_size * q.prefix_leafs g + k * q.feature_size) := by
    rw [haddr, List.map_map]
    rfl
  refine ⟨haddr, hvis, ⟨hnodup, hrank⟩, ?_, ?_⟩
  · rw [haddr', List.pairwise_map]
    exact hnodup.imp (fun hk f f' hf hf' => rank_vectors_disjoint _ _ _ _ f f' hk hf hf')
  · intro hpre c hc f hf
    have hmem : c.addr ∈ (cell_calls tree_data_idx q g).map Call.addr :=
      List.mem_map_of_mem _ hc
    rw [haddr'] at hmem
    obtain ⟨k, hk, hkc⟩ := List.mem_map.1 hmem
    have hkn : k < n_leaves (q.trees g) := List.mem_range.1 (hrank.mem_iff.1 hk)
    have h1 := Nat.mul_le_mul_right q.feature_size (Nat.succ_le_of_lt hkn)
    rw [Nat.succ_mul] at h1
    rw [hpre, Nat.mul_add, ← hkc, Nat.mul_comm q.feature_size (n_leaves (q.trees g))]
    omega

end MotionSparsity
